import Mathlib

/-!
# sdputil: rule reconciliation against a packet-filter driver

A shallow embedding of `builder.go`, `sys.go` and `rules.go`.

* The device behind the file descriptor is a state machine `Driver σ`: one
  `ioctl` request yields a new driver state and a reply `(r1, r2, errno)` plus
  whatever the driver wrote through the pointer argument.
* Every function that talks to the driver returns a `Run`: the driver state
  afterwards, the list of requests it issued (with their replies), and its Go
  return value.
* A Go panic (index out of range, `make` with a negative length, a failed
  reflection access) is an explicit result, never a silent success.
* Locks and logging are not modelled.
-/

namespace Sdputil

/-! ## rules.go -/

/-- RuleT4 of rules.go. The unsigned fields are naturals, `Dip_extern_switch`
(an int32) is an integer. The unexported link field `next` is never read or
written by the package and is left out. -/
structure RuleT4 where
  SourceIp : Nat
  Sourceip_extern : Nat
  Sip_extern_switch : Nat
  DestIp : Nat
  Destip_extern : Nat
  Dip_extern_switch : Int
  SourcePort : Nat
  DestPort : Nat
  Protocol : Nat
deriving DecidableEq

/-- RuleT6 of rules.go, without the unexported link field `next`. -/
structure RuleT6 where
  Sourceippart1 : Nat
  Sourceippart2 : Nat
  Sourceippart3 : Nat
  Sourceippart4 : Nat
  Destippart1 : Nat
  Destippart2 : Nat
  Destippart3 : Nat
  Destippart4 : Nat
  Sourceport : Nat
  Destport : Nat
  Protocol : Nat
deriving DecidableEq

/-- The zero value of RuleT4: what `make([]RuleT4, n)` fills a buffer with. -/
def RuleT4.zero : RuleT4 := ⟨0, 0, 0, 0, 0, 0, 0, 0, 0⟩

/-- The zero value of RuleT6. -/
def RuleT6.zero : RuleT6 := ⟨0, 0, 0, 0, 0, 0, 0, 0, 0, 0, 0⟩

/-! ## builder.go: the rule type and the builder -/

/-- The values the string field `builder.typ` takes: the empty string of a
fresh builder, and the constants `ipv4` and `ipv6`. -/
inductive Typ
  | unset
  | ipv4
  | ipv6
deriving DecidableEq

/-- The part of the `builder` struct that influences behaviour: `typ`. The
descriptor `fd` is represented by the driver the operations are run against. -/
structure builder where
  typ : Typ
deriving DecidableEq

/-! ## sys.go: command codes and the request primitive -/

def v4netAddRule : Nat := 0
def v4netDelRule : Nat := 1
def v4netLookupRule : Nat := 10
def v4netClsRule : Nat := 11
def v4netRuleLen : Nat := 100
def netRuleSat : Nat := 101
def v6netAddRule : Nat := 110
def v6netDelRule : Nat := 111
def v6netLookupRule : Nat := 1000
def v6netRuleLen : Nat := 1010

/-- Third argument of the ioctl request: the immediate of the length query,
a pointer to one rule, or a pointer to the first element of a buffer of `n`
rules. -/
inductive Arg
  | imm (n : Nat)
  | rule4 (r : RuleT4)
  | rule6 (r : RuleT6)
  | buf4 (n : Nat)
  | buf6 (n : Nat)
deriving DecidableEq

/-- One request: the command code (`signal`) and its argument. -/
structure Request where
  signal : Nat
  arg : Arg
deriving DecidableEq

/-- What `syscall.Syscall` gives back, together with the rules the driver wrote
through a buffer pointer (`out4`, `out6`). -/
structure Reply where
  r1 : Nat
  r2 : Nat
  errno : Nat
  out4 : List RuleT4
  out6 : List RuleT6
deriving DecidableEq

/-- A request together with the reply it received. -/
abbrev Event := Request × Reply

/-- The device: any state machine answering requests. -/
structure Driver (σ : Type) where
  ioctl : σ → Request → σ × Reply

/-- Result of running code against the driver. -/
structure Run (σ : Type) (α : Type) where
  st : σ
  events : List Event
  val : α

/-- Put the requests issued earlier in front of a run. -/
def Run.prepend {σ α : Type} (evs : List Event) (r : Run σ α) : Run σ α :=
  ⟨r.st, evs ++ r.events, r.val⟩

/-- The requests issued by a run, without the replies. -/
def Run.requests {σ α : Type} (r : Run σ α) : List Request :=
  r.events.map Prod.fst

/-- `syscall.Syscall(SYS_IOCTL, fd, signal, v)`. -/
def ioctlCall {σ : Type} (d : Driver σ) (s : σ) (rq : Request) : σ × Event :=
  ((d.ioctl s rq).1, (rq, (d.ioctl s rq).2))

/-- syscallCreate of sys.go. -/
def syscallCreate {σ : Type} (d : Driver σ) (typ : Typ) (s : σ) (v : Arg) : σ × Event :=
  ioctlCall d s ⟨if typ = Typ.ipv4 then v4netAddRule else v6netAddRule, v⟩

/-- syscallLen of sys.go. -/
def syscallLen {σ : Type} (d : Driver σ) (typ : Typ) (s : σ) : σ × Event :=
  ioctlCall d s ⟨if typ = Typ.ipv4 then v4netRuleLen else v6netAddRule, Arg.imm 0⟩

/-- syscallLookup of sys.go. -/
def syscallLookup {σ : Type} (d : Driver σ) (typ : Typ) (s : σ) (v : Arg) : σ × Event :=
  ioctlCall d s ⟨if typ = Typ.ipv4 then v4netLookupRule else v6netAddRule, v⟩

/-- syscallDelete of sys.go. -/
def syscallDelete {σ : Type} (d : Driver σ) (typ : Typ) (s : σ) (v : Arg) : σ × Event :=
  ioctlCall d s ⟨if typ = Typ.ipv4 then v4netDelRule else v6netAddRule, v⟩

/-! ## Machine integers and buffers -/

/-- The conversion `int32(res)` of a `uintptr`: the low 32 bits, signed. -/
def toInt32 (x : Nat) : Int :=
  if x % 2 ^ 32 < 2 ^ 31 then ((x % 2 ^ 32 : Nat) : Int)
  else ((x % 2 ^ 32 : Nat) : Int) - 2 ^ 32

/-- A zeroed buffer of `n` rules after the driver wrote `out` into it from the
first element on. -/
def readBuf {α : Type} (zero : α) (n : Nat) (out : List α) : List α :=
  (out ++ List.replicate n zero).take n

/-! ## builder.go: results -/

/-- The three named results `(r1, r2, err)` of doCreate and doDiff. -/
structure Ret where
  r1 : Nat
  r2 : Nat
  err : Nat
deriving DecidableEq

/-- A Go function result that may instead be a panic. -/
inductive Go (α : Type)
  | ret (a : α)
  | panic
deriving DecidableEq

/-- The `error` result of C, D and Self: `nil`, a `syscall.Errno`, the error
"unsupported rule types", or a panic instead of a return. -/
inductive Outcome
  | nil
  | errno (code : Nat)
  | unsupported
  | panic
deriving DecidableEq

/-! ## builder.go: ref -/

/-- A struct field as reflection sees it: a uint32, int32 or uint16 value, or
anything else (another type, or an unexported field). -/
inductive FieldVal
  | u32 (n : Nat)
  | i32 (n : Int)
  | u16 (n : Nat)
  | other
deriving DecidableEq

/-- An element of a slice of some other type: a struct with its fields in
declaration order, or not a struct. -/
inductive Elem
  | struct (fields : List FieldVal)
  | nonStruct
deriving DecidableEq

/-- The `interface{}` argument of C, D and Self, by what `reflect` reports:
not a slice, a `[]sdputil.RuleT4`, a `[]sdputil.RuleT6`, or a slice of any
other type. -/
inductive Value
  | nonSlice
  | sliceT4 (xs : List RuleT4)
  | sliceT6 (xs : List RuleT6)
  | sliceOther (xs : List Elem)

/-- `value.Field(k).Interface().(uint32)`; `none` is a panic. -/
def fieldU32 (fs : List FieldVal) (k : Nat) : Option Nat :=
  match fs.get? k with
  | some (FieldVal.u32 n) => some n
  | _ => none

/-- `value.Field(k).Interface().(int32)`; `none` is a panic. -/
def fieldI32 (fs : List FieldVal) (k : Nat) : Option Int :=
  match fs.get? k with
  | some (FieldVal.i32 n) => some n
  | _ => none

/-- `value.Field(k).Interface().(uint16)`; `none` is a panic. -/
def fieldU16 (fs : List FieldVal) (k : Nat) : Option Nat :=
  match fs.get? k with
  | some (FieldVal.u16 n) => some n
  | _ => none

/-- The `case ipv4` body of the loop in ref on an element of another slice
type; `none` is a panic. -/
def elemT4 : Elem → Option RuleT4
  | Elem.nonStruct => none
  | Elem.struct fs =>
    match fieldU32 fs 0, fieldU32 fs 1, fieldU32 fs 2, fieldU32 fs 3, fieldU32 fs 4,
      fieldI32 fs 5, fieldU16 fs 6, fieldU16 fs 7, fieldU16 fs 8 with
    | some a0, some a1, some a2, some a3, some a4, some a5, some a6, some a7, some a8 =>
      some ⟨a0, a1, a2, a3, a4, a5, a6, a7, a8⟩
    | _, _, _, _, _, _, _, _, _ => none

/-- The `case ipv6` body of the loop in ref on an element of another slice
type; `none` is a panic. -/
def elemT6 : Elem → Option RuleT6
  | Elem.nonStruct => none
  | Elem.struct fs =>
    match fieldU32 fs 0, fieldU32 fs 1, fieldU32 fs 2, fieldU32 fs 3, fieldU32 fs 4,
      fieldU32 fs 5, fieldU32 fs 6, fieldU32 fs 7, fieldU16 fs 8, fieldU16 fs 9,
      fieldU16 fs 10 with
    | some a0, some a1, some a2, some a3, some a4, some a5, some a6, some a7, some a8,
      some a9, some a10 => some ⟨a0, a1, a2, a3, a4, a5, a6, a7, a8, a9, a10⟩
    | _, _, _, _, _, _, _, _, _, _, _ => none

/-- Convert every element, stopping with `none` (a panic) at the first one
that cannot be converted. -/
def convertAll {α β : Type} (f : α → Option β) : List α → Option (List β)
  | [] => some []
  | x :: xs =>
    match f x with
    | none => none
    | some y =>
      match convertAll f xs with
      | none => none
      | some ys => some (y :: ys)

/-- The RuleT4 literal ref builds from the nine fields of an element. -/
def copyT4 (v : RuleT4) : RuleT4 :=
  { SourceIp := v.SourceIp,
    Sourceip_extern := RuleT4.Sourceip_extern v,
    Sip_extern_switch := v.Sip_extern_switch,
    DestIp := v.DestIp,
    Destip_extern := RuleT4.Destip_extern v,
    Dip_extern_switch := v.Dip_extern_switch,
    SourcePort := v.SourcePort,
    DestPort := v.DestPort,
    Protocol := v.Protocol }

/-- The RuleT6 literal ref builds from the eleven fields of an element. -/
def copyT6 (v : RuleT6) : RuleT6 :=
  { Sourceippart1 := v.Sourceippart1,
    Sourceippart2 := v.Sourceippart2,
    Sourceippart3 := v.Sourceippart3,
    Sourceippart4 := v.Sourceippart4,
    Destippart1 := v.Destippart1,
    Destippart2 := v.Destippart2,
    Destippart3 := v.Destippart3,
    Destippart4 := v.Destippart4,
    Sourceport := v.Sourceport,
    Destport := v.Destport,
    Protocol := v.Protocol }

/-- Result of ref: the two lists with a nil error, the error "unsupported
rule types", or a panic. -/
inductive RefResult
  | ok (v4list : List RuleT4) (v6list : List RuleT6)
  | unsupported
  | panic
deriving DecidableEq

/-- The method ref of builder.go. It returns the builder as well, because it
assigns `b.typ`. For a slice of another type the switch on the type string
assigns nothing, and the loop runs with the `typ` a previous call left. -/
def builder.ref (b : builder) : Value → builder × RefResult
  | Value.nonSlice => (b, RefResult.unsupported)
  | Value.sliceT4 xs => (⟨Typ.ipv4⟩, RefResult.ok (xs.map copyT4) [])
  | Value.sliceT6 xs => (⟨Typ.ipv6⟩, RefResult.ok [] (xs.map copyT6))
  | Value.sliceOther xs =>
    match b.typ with
    | Typ.unset => (b, RefResult.ok [] [])
    | Typ.ipv4 =>
      match convertAll elemT4 xs with
      | some l => (b, RefResult.ok l [])
      | none => (b, RefResult.panic)
    | Typ.ipv6 =>
      match convertAll elemT6 xs with
      | some l => (b, RefResult.ok [] l)
      | none => (b, RefResult.panic)

/-! ## builder.go: the match predicates, one per place of the source -/

/-- The condition of doDiff on IPv4 rules (`inner` installed, `out` desired). -/
def doDiffMatch4 (inner out : RuleT4) : Bool :=
  inner.SourceIp == out.SourceIp &&
  inner.SourcePort == out.SourcePort &&
  inner.DestIp == out.DestIp &&
  inner.DestPort == out.DestPort &&
  inner.Protocol == out.Protocol

/-- The condition of doDiff on IPv6 rules. -/
def doDiffMatch6 (inner out : RuleT6) : Bool :=
  inner.Sourceippart1 == out.Sourceippart1 &&
  inner.Sourceippart2 == out.Sourceippart2 &&
  inner.Sourceippart3 == out.Sourceippart3 &&
  inner.Sourceippart4 == out.Sourceippart4 &&
  inner.Destippart1 == out.Destippart1 &&
  inner.Destippart2 == out.Destippart2 &&
  inner.Destippart3 == out.Destippart3 &&
  inner.Destippart4 == out.Destippart4 &&
  inner.Destport == out.Destport &&
  inner.Protocol == out.Protocol

/-- The condition of delete on IPv4 rules (`outer` desired, `inner` installed). -/
def deleteMatch4 (outer inner : RuleT4) : Bool :=
  outer.SourceIp == inner.SourceIp &&
  outer.SourcePort == inner.SourcePort &&
  outer.DestIp == inner.DestIp &&
  outer.DestPort == inner.DestPort &&
  outer.Protocol == inner.Protocol

/-- The condition of delete on IPv6 rules. -/
def deleteMatch6 (outer inner : RuleT6) : Bool :=
  outer.Sourceippart1 == inner.Sourceippart1 &&
  outer.Sourceippart2 == inner.Sourceippart2 &&
  outer.Sourceippart3 == inner.Sourceippart3 &&
  outer.Sourceippart4 == inner.Sourceippart4 &&
  outer.Destippart1 == inner.Destippart1 &&
  outer.Destippart2 == inner.Destippart2 &&
  outer.Destippart3 == inner.Destippart3 &&
  outer.Destippart4 == inner.Destippart4 &&
  outer.Destport == inner.Destport &&
  outer.Protocol == inner.Protocol

/-- The condition of self on IPv4 rules (`nac` installed, `r` desired). -/
def selfMatch4 (nac r : RuleT4) : Bool :=
  nac.SourceIp == r.SourceIp &&
  nac.SourcePort == r.SourcePort &&
  nac.DestIp == r.DestIp &&
  nac.DestPort == r.DestPort &&
  nac.Protocol == r.Protocol

/-- The condition of self on IPv6 rules. -/
def selfMatch6 (nac r : RuleT6) : Bool :=
  nac.Sourceippart1 == r.Sourceippart1 &&
  nac.Sourceippart2 == r.Sourceippart2 &&
  nac.Sourceippart3 == r.Sourceippart3 &&
  nac.Sourceippart4 == r.Sourceippart4 &&
  nac.Destippart1 == r.Destippart1 &&
  nac.Destippart2 == r.Destippart2 &&
  nac.Destippart3 == r.Destippart3 &&
  nac.Destippart4 == r.Destippart4 &&
  nac.Destport == r.Destport &&
  nac.Protocol == r.Protocol

/-! ## builder.go: doCreate, doDiff, create -/

/-- The results `(r1, r2, err)` a request primitive hands back. -/
def Reply.ret (rp : Reply) : Ret := ⟨rp.r1, rp.r2, rp.errno⟩

/-- The second loop of doCreate, over `v6Data`, followed by `return 0, 0, 0`.
A failed request (`ep != 0`) continues with the next rule; a successful one
returns at once. -/
def doCreateV6 {σ : Type} (d : Driver σ) (typ : Typ) : List RuleT6 → σ → Run σ Ret
  | [], s => ⟨s, [], ⟨0, 0, 0⟩⟩
  | v :: rest, s =>
    let c := syscallCreate d typ s (Arg.rule6 v)
    if c.2.2.errno ≠ 0 then (doCreateV6 d typ rest c.1).prepend [c.2]
    else ⟨c.1, [c.2], c.2.2.ret⟩

/-- The first loop of doCreate, over `v4Data`; when it ends without returning,
the loop over `v6Data` follows. -/
def doCreateV4 {σ : Type} (d : Driver σ) (typ : Typ) (v6Data : List RuleT6) :
    List RuleT4 → σ → Run σ Ret
  | [], s => doCreateV6 d typ v6Data s
  | v :: rest, s =>
    let c := syscallCreate d typ s (Arg.rule4 v)
    if c.2.2.errno ≠ 0 then (doCreateV4 d typ v6Data rest c.1).prepend [c.2]
    else ⟨c.1, [c.2], c.2.2.ret⟩

/-- The function doCreate of builder.go. -/
def doCreate {σ : Type} (d : Driver σ) (typ : Typ) (v4Data : List RuleT4)
    (v6Data : List RuleT6) (s : σ) : Run σ Ret :=
  doCreateV4 d typ v6Data v4Data s

/-- What the buffer allocation and the two guarded lookups give: a panic, a
failed lookup (with its results), or the two installed lists together with the
values the named results `(r1, r2, err)` hold afterwards. -/
inductive Fetched
  | panic
  | failed (r : Ret)
  | ok (v4List : List RuleT4) (v6List : List RuleT6) (named : Ret)
deriving DecidableEq

/-- The second guarded lookup: `if len(v6s) != 0 { syscallLookup(typ, fd,
&v6Array[0]) ... }`. Taking the address of the first element of an empty
buffer panics before any request is made. -/
def fetchV6 {σ : Type} (d : Driver σ) (typ : Typ) (v6s : List RuleT6) (n : Nat)
    (v4List : List RuleT4) (named : Ret) (s : σ) : Run σ Fetched :=
  if v6s ≠ [] then
    if n = 0 then ⟨s, [], Fetched.panic⟩
    else
      let lk := syscallLookup d typ s (Arg.buf6 n)
      if lk.2.2.errno ≠ 0 then ⟨lk.1, [lk.2], Fetched.failed lk.2.2.ret⟩
      else ⟨lk.1, [lk.2], Fetched.ok v4List (readBuf RuleT6.zero n lk.2.2.out6) lk.2.2.ret⟩
  else ⟨s, [], Fetched.ok v4List [] named⟩

/-- The block shared by doDiff, delete and self: `make` of the two buffers of
`n = int32(res)` elements (a panic when `n` is negative), then the guarded
lookup for `v4s` and the guarded lookup for `v6s`. -/
def fetch {σ : Type} (d : Driver σ) (typ : Typ) (v4s : List RuleT4) (v6s : List RuleT6)
    (n : Int) (s : σ) : Run σ Fetched :=
  if n < 0 then ⟨s, [], Fetched.panic⟩
  else if v4s ≠ [] then
    if n.toNat = 0 then ⟨s, [], Fetched.panic⟩
    else
      let lk := syscallLookup d typ s (Arg.buf4 n.toNat)
      if lk.2.2.errno ≠ 0 then ⟨lk.1, [lk.2], Fetched.failed lk.2.2.ret⟩
      else
        (fetchV6 d typ v6s n.toNat (readBuf RuleT4.zero n.toNat lk.2.2.out4) lk.2.2.ret
          lk.1).prepend [lk.2]
  else fetchV6 d typ v6s n.toNat [] ⟨0, 0, 0⟩ s

/-- The comparison loop of doDiff, for either family: every desired rule `out`
that matches no installed rule is handed to doCreate as a one-element list
(`one out` gives the two lists of that call). `some r` is the bare `return`
after `ep != 0`, which returns the named results; `none` is the end of the
loop. -/
def diffLoop {σ α : Type} (d : Driver σ) (typ : Typ) (eq : α → α → Bool)
    (one : α → List RuleT4 × List RuleT6) (installed : List α) (named : Ret) :
    List α → σ → Run σ (Option Ret)
  | [], s => ⟨s, [], none⟩
  | out :: rest, s =>
    if installed.any (fun inner => eq inner out) then
      diffLoop d typ eq one installed named rest s
    else
      let c := doCreate d typ (one out).1 (one out).2 s
      if c.val.err ≠ 0 then ⟨c.st, c.events, some named⟩
      else (diffLoop d typ eq one installed named rest c.st).prepend c.events

/-- The two comparison loops of doDiff and its final `return 0, 0, 0`. -/
def diffLoops {σ : Type} (d : Driver σ) (typ : Typ) (v4Data : List RuleT4)
    (v6Data : List RuleT6) (v4s : List RuleT4) (v6s : List RuleT6) (named : Ret)
    (s : σ) : Run σ Ret :=
  let l4 := diffLoop d typ doDiffMatch4 (fun out => ([out], v6Data)) v4s named v4Data s
  match l4.val with
  | some r => ⟨l4.st, l4.events, r⟩
  | none =>
    let l6 := diffLoop d typ doDiffMatch6 (fun out => (v4Data, [out])) v6s named v6Data l4.st
    match l6.val with
    | some r => ⟨l6.st, l4.events ++ l6.events, r⟩
    | none => ⟨l6.st, l4.events ++ l6.events, ⟨0, 0, 0⟩⟩

/-- The function doDiff of builder.go. -/
def doDiff {σ : Type} (d : Driver σ) (typ : Typ) (v4Data : List RuleT4)
    (v6Data : List RuleT6) (addLen : Int) (s : σ) : Run σ (Go Ret) :=
  let f := fetch d typ v4Data v6Data addLen s
  match f.val with
  | Fetched.panic => ⟨f.st, f.events, Go.panic⟩
  | Fetched.failed r => ⟨f.st, f.events, Go.ret r⟩
  | Fetched.ok v4s v6s named =>
    let l := diffLoops d typ v4Data v6Data v4s v6s named f.st
    ⟨l.st, f.events ++ l.events, Go.ret l.val⟩

/-- The body of create after ref succeeded. -/
def createBody {σ : Type} (d : Driver σ) (typ : Typ) (v4s : List RuleT4)
    (v6s : List RuleT6) (s : σ) : Run σ Outcome :=
  let len := syscallLen d typ s
  if len.2.2.errno ≠ 0 then ⟨len.1, [len.2], Outcome.errno len.2.2.errno⟩
  else if toInt32 len.2.2.r1 = 0 then
    let c := doCreate d typ v4s v6s len.1
    if c.val.err ≠ 0 then ⟨c.st, len.2 :: c.events, Outcome.errno c.val.err⟩
    else ⟨c.st, len.2 :: c.events, Outcome.nil⟩
  else
    let df := doDiff d typ v4s v6s (toInt32 len.2.2.r1) len.1
    match df.val with
    | Go.panic => ⟨df.st, len.2 :: df.events, Outcome.panic⟩
    | Go.ret r =>
      if r.err ≠ 0 then ⟨df.st, len.2 :: df.events, Outcome.errno r.err⟩
      else ⟨df.st, len.2 :: df.events, Outcome.nil⟩

/-- The method create of builder.go. -/
def builder.create {σ : Type} (b : builder) (d : Driver σ) (values : Value) (s : σ) :
    builder × Run σ Outcome :=
  match (b.ref values).2 with
  | RefResult.unsupported => ((b.ref values).1, ⟨s, [], Outcome.unsupported⟩)
  | RefResult.panic => ((b.ref values).1, ⟨s, [], Outcome.panic⟩)
  | RefResult.ok v4s v6s => ((b.ref values).1, createBody d (b.ref values).1.typ v4s v6s s)

/-! ## builder.go: delete and self -/

/-- The inner loop of delete for one desired rule `outer`: one delete request
carrying `outer` for every installed rule that matches it. `some ep` is
`return ep`. -/
def deleteInner {σ α : Type} (d : Driver σ) (typ : Typ) (eq : α → α → Bool)
    (mk : α → Arg) (outer : α) : List α → σ → Run σ (Option Nat)
  | [], s => ⟨s, [], none⟩
  | inner :: rest, s =>
    if eq outer inner then
      let del := syscallDelete d typ s (mk outer)
      if del.2.2.errno ≠ 0 then ⟨del.1, [del.2], some del.2.2.errno⟩
      else (deleteInner d typ eq mk outer rest del.1).prepend [del.2]
    else deleteInner d typ eq mk outer rest s

/-- The outer loop of delete over the desired rules. -/
def deleteLoop {σ α : Type} (d : Driver σ) (typ : Typ) (eq : α → α → Bool)
    (mk : α → Arg) (installed : List α) : List α → σ → Run σ (Option Nat)
  | [], s => ⟨s, [], none⟩
  | outer :: rest, s =>
    let r := deleteInner d typ eq mk outer installed s
    match r.val with
    | some ep => ⟨r.st, r.events, some ep⟩
    | none => (deleteLoop d typ eq mk installed rest r.st).prepend r.events

/-- The loop of self over the installed rules: `flag` is set when some desired
rule matches `nac`; otherwise a delete request carrying `nac` is made. -/
def selfLoop {σ α : Type} (d : Driver σ) (typ : Typ) (eq : α → α → Bool)
    (mk : α → Arg) (desired : List α) : List α → σ → Run σ (Option Nat)
  | [], s => ⟨s, [], none⟩
  | nac :: rest, s =>
    if desired.any (fun r => eq nac r) then selfLoop d typ eq mk desired rest s
    else
      let del := syscallDelete d typ s (mk nac)
      if del.2.2.errno ≠ 0 then ⟨del.1, [del.2], some del.2.2.errno⟩
      else (selfLoop d typ eq mk desired rest del.1).prepend [del.2]

/-- Run the IPv4 loop and then the IPv6 loop, each under its guard
`len(..) != 0`, and `return nil` at the end. -/
def twoLoops {σ : Type} (v4s : List RuleT4) (v6s : List RuleT6)
    (loop4 : σ → Run σ (Option Nat)) (loop6 : σ → Run σ (Option Nat)) (s : σ) :
    Run σ Outcome :=
  let l4 : Run σ (Option Nat) := if v4s ≠ [] then loop4 s else ⟨s, [], none⟩
  match l4.val with
  | some ep => ⟨l4.st, l4.events, Outcome.errno ep⟩
  | none =>
    let l6 : Run σ (Option Nat) := if v6s ≠ [] then loop6 l4.st else ⟨l4.st, [], none⟩
    match l6.val with
    | some ep => ⟨l6.st, l4.events ++ l6.events, Outcome.errno ep⟩
    | none => ⟨l6.st, l4.events ++ l6.events, Outcome.nil⟩

/-- The part common to delete and self after ref: the length query, the
buffers and lookups, then the loops given by `loops`. -/
def queryThen {σ : Type} (d : Driver σ) (typ : Typ) (v4s : List RuleT4)
    (v6s : List RuleT6) (loops : List RuleT4 → List RuleT6 → σ → Run σ Outcome) (s : σ) :
    Run σ Outcome :=
  let len := syscallLen d typ s
  if len.2.2.errno ≠ 0 then ⟨len.1, [len.2], Outcome.errno len.2.2.errno⟩
  else
    let f := fetch d typ v4s v6s (toInt32 len.2.2.r1) len.1
    match f.val with
    | Fetched.panic => ⟨f.st, len.2 :: f.events, Outcome.panic⟩
    | Fetched.failed r => ⟨f.st, len.2 :: f.events, Outcome.errno r.err⟩
    | Fetched.ok v4List v6List _ =>
      let l := loops v4List v6List f.st
      ⟨l.st, len.2 :: (f.events ++ l.events), l.val⟩

/-- The body of delete after ref succeeded. -/
def deleteBody {σ : Type} (d : Driver σ) (typ : Typ) (v4s : List RuleT4)
    (v6s : List RuleT6) (s : σ) : Run σ Outcome :=
  queryThen d typ v4s v6s
    (fun v4List v6List =>
      twoLoops v4s v6s (deleteLoop d typ deleteMatch4 Arg.rule4 v4List v4s)
        (deleteLoop d typ deleteMatch6 Arg.rule6 v6List v6s)) s

/-- The body of self after ref succeeded. -/
def selfBody {σ : Type} (d : Driver σ) (typ : Typ) (v4s : List RuleT4)
    (v6s : List RuleT6) (s : σ) : Run σ Outcome :=
  queryThen d typ v4s v6s
    (fun v4List v6List =>
      twoLoops v4s v6s (selfLoop d typ selfMatch4 Arg.rule4 v4s v4List)
        (selfLoop d typ selfMatch6 Arg.rule6 v6s v6List)) s

/-- The method delete of builder.go. -/
def builder.delete {σ : Type} (b : builder) (d : Driver σ) (values : Value) (s : σ) :
    builder × Run σ Outcome :=
  match (b.ref values).2 with
  | RefResult.unsupported => ((b.ref values).1, ⟨s, [], Outcome.unsupported⟩)
  | RefResult.panic => ((b.ref values).1, ⟨s, [], Outcome.panic⟩)
  | RefResult.ok v4s v6s => ((b.ref values).1, deleteBody d (b.ref values).1.typ v4s v6s s)

/-- The method self of builder.go. -/
def builder.self {σ : Type} (b : builder) (d : Driver σ) (values : Value) (s : σ) :
    builder × Run σ Outcome :=
  match (b.ref values).2 with
  | RefResult.unsupported => ((b.ref values).1, ⟨s, [], Outcome.unsupported⟩)
  | RefResult.panic => ((b.ref values).1, ⟨s, [], Outcome.panic⟩)
  | RefResult.ok v4s v6s => ((b.ref values).1, selfBody d (b.ref values).1.typ v4s v6s s)

/-- The method C: create under the builder's lock. -/
def builder.C {σ : Type} (b : builder) (d : Driver σ) (rules : Value) (s : σ) :
    builder × Run σ Outcome :=
  b.create d rules s

/-- The method D: delete under the builder's lock. -/
def builder.D {σ : Type} (b : builder) (d : Driver σ) (rules : Value) (s : σ) :
    builder × Run σ Outcome :=
  b.delete d rules s

/-- The method Self: self, without the lock. -/
def builder.Self {σ : Type} (b : builder) (d : Driver σ) (rules : Value) (s : σ) :
    builder × Run σ Outcome :=
  b.self d rules s

/-! ## Drivers used in examples -/

/-- A driver that answers from a script: the state is the list of replies
still to give; when the script is used up every request succeeds with zero
results. -/
def scriptDriver : Driver (List Reply) where
  ioctl := fun s _ =>
    match s with
    | [] => ([], ⟨0, 0, 0, [], []⟩)
    | rp :: rest => (rest, rp)

/-- A successful reply carrying a result `r1`. -/
def Reply.ok (r1 : Nat) : Reply := ⟨r1, 0, 0, [], []⟩

/-- A failed reply with error code `e` (and `r1` all ones, as the kernel
interface gives it). -/
def Reply.fail (e : Nat) : Reply := ⟨2 ^ 64 - 1, 0, e, [], []⟩

/-- A successful reply to a lookup that wrote the IPv4 rules `out`. -/
def Reply.rules4 (out : List RuleT4) : Reply := ⟨0, 0, 0, out, []⟩

/-- The reference IPv4 driver: its state is the list of installed rules; the
length query reports the length, the lookup writes the list, an add appends the
rule and succeeds, a delete removes every rule with the same 5-tuple and
succeeds; any other request fails with EINVAL (22). -/
def listDriver4 : Driver (List RuleT4) where
  ioctl := fun I rq =>
    if rq.signal = v4netRuleLen then (I, Reply.ok I.length)
    else if rq.signal = v4netLookupRule then (I, Reply.rules4 I)
    else if rq.signal = v4netAddRule then
      match rq.arg with
      | Arg.rule4 r => (I ++ [r], Reply.ok 0)
      | _ => (I, Reply.fail 22)
    else if rq.signal = v4netDelRule then
      match rq.arg with
      | Arg.rule4 r => (I.filter (fun i => !deleteMatch4 r i), Reply.ok 0)
      | _ => (I, Reply.fail 22)
    else (I, Reply.fail 22)

/-- An IPv4 rule given by its 5-tuple, the other fields as in the test. -/
def rule4 (sip sport dip dport proto : Nat) : RuleT4 :=
  ⟨sip, 0xFFFF, 0, dip, 0xFFFF, 0, sport, dport, proto⟩

/-! ## options.go and builder.go: Options, New, Init -/

/-- Options of options.go. -/
structure Options where
  Path : String

/-- NewOptions of options.go. -/
def NewOptions : Options := ⟨"/dev/authon_netfilter"⟩

/-- The method Fd of Options: `os.Open(o.Path)`. The operating system is the
parameter `osOpen`, which gives an error code or a descriptor. The result is
the pair `(fd, err)`; the file object is not modelled. -/
def Options.Fd (osOpen : String → Except Nat Nat) (o : Options) : Nat × Option Nat :=
  match osOpen o.Path with
  | Except.error err => (0, some err)
  | Except.ok fd => (fd, none)

/-- New of builder.go: the pair `(Builder, error)`, each of which may be nil.
A nil `opts` is replaced by NewOptions. -/
def New (osOpen : String → Except Nat Nat) (opts : Option Options) :
    Option builder × Option Nat :=
  match (Options.Fd osOpen (match opts with | none => NewOptions | some o => o)).2 with
  | some err => (none, some err)
  | none => (some ⟨Typ.unset⟩, none)

/-- Init of builder.go: `if err != nil { return nil, nil }`, else
`return builder, nil`. The package lock is not modelled. -/
def Init (osOpen : String → Except Nat Nat) (opts : Option Options) :
    Option builder × Option Nat :=
  match (New osOpen opts).2 with
  | some _ => (none, none)
  | none => ((New osOpen opts).1, none)

/-! ## Vocabulary of the statements -/

/-- The 5-tuple of the specification: source address, source port, destination
address, destination port, protocol. -/
def RuleT4.tuple5 (r : RuleT4) : Nat × Nat × Nat × Nat × Nat :=
  (r.SourceIp, r.SourcePort, r.DestIp, r.DestPort, r.Protocol)

/-- Every request of the list succeeded. -/
def Clean (evs : List Event) : Prop := ∀ ev ∈ evs, ev.2.errno = 0

/-- The last request of the list failed with `code`, all earlier ones
succeeded. -/
def FailsWith (evs : List Event) (code : Nat) : Prop :=
  ∃ pre ev, evs = pre ++ [ev] ∧ Clean pre ∧ ev.2.errno = code ∧ code ≠ 0

/-- A loop either ran through on successful requests only, or returned the code
of its last, failed request. -/
def LoopOk {σ : Type} (r : Run σ (Option Nat)) : Prop :=
  match r.val with
  | none => Clean r.events
  | some ep => FailsWith r.events ep

/-- An operation returns an errno only as the code of its last, failed request;
otherwise all of its requests succeeded. -/
def OutcomeOk {σ : Type} (r : Run σ Outcome) : Prop :=
  match r.val with
  | Outcome.errno c => FailsWith r.events c
  | _ => Clean r.events

/-- The lookups return an error only as the code of their last, failed
request. -/
def FetchOk {σ : Type} (r : Run σ Fetched) : Prop :=
  match r.val with
  | Fetched.failed c => FailsWith r.events c.err
  | _ => Clean r.events

/-- The builder New returns: `typ` is the empty string. -/
def newBuilder : builder := ⟨Typ.unset⟩

/-- The rule `(0, 0, 0, 1897, 6)` of the test. -/
def ruleA : RuleT4 := rule4 0 0 0 1897 6

/-- The rule `(0, 0, 0, 999, 6)` of the test. -/
def ruleB : RuleT4 := rule4 0 0 0 999 6

/-- The rule `(0, 0, 0, 555, 6)`. -/
def ruleC : RuleT4 := rule4 0 0 0 555 6

/-- The IPv4 command codes used by the operations. -/
def v4Codes : List Nat := [v4netAddRule, v4netDelRule, v4netLookupRule, v4netRuleLen]

/-- The IPv6 command codes of the protocol table. -/
def v6Codes : List Nat := [v6netAddRule, v6netDelRule, v6netLookupRule, v6netRuleLen]

/-- The argument points to an IPv4 rule or an IPv4 buffer. -/
def Arg.isV4 : Arg → Bool
  | Arg.rule4 _ => true
  | Arg.buf4 _ => true
  | _ => false

/-- The argument points to an IPv6 rule or an IPv6 buffer. -/
def Arg.isV6 : Arg → Bool
  | Arg.rule6 _ => true
  | Arg.buf6 _ => true
  | _ => false

/-- A request of the IPv4 family: an IPv4 code, not an IPv6 code, and no IPv6
rule or buffer as argument. -/
def IsV4Request (rq : Request) : Prop :=
  rq.signal ∈ v4Codes ∧ rq.signal ∉ v6Codes ∧ rq.arg.isV6 = false

/-- A request of the IPv6 family: an IPv6 code, not an IPv4 code, and no IPv4
rule or buffer as argument. -/
def IsV6Request (rq : Request) : Prop :=
  rq.signal ∈ v6Codes ∧ rq.signal ∉ v4Codes ∧ rq.arg.isV4 = false

/-- The order of an IPv4 trace: the length query (code 100, argument 0), then
at most one lookup (code 10), then only requests with code `code` carrying an
IPv4 rule. -/
def OrderedV4 (code : Nat) (rqs : List Request) : Prop :=
  ∃ muts, (rqs = ⟨v4netRuleLen, Arg.imm 0⟩ :: muts ∨
      ∃ n, rqs = ⟨v4netRuleLen, Arg.imm 0⟩ :: ⟨v4netLookupRule, Arg.buf4 n⟩ :: muts) ∧
    ∀ rq ∈ muts, ∃ v, rq = ⟨code, Arg.rule4 v⟩

/-- The requests the two guarded lookups of one call can make: at most one for
the IPv4 buffer, only when `v4s` is not empty, then at most one for the IPv6
buffer, only when `v6s` is not empty. -/
def LookupsShape (typ : Typ) (v4s : List RuleT4) (v6s : List RuleT6)
    (looks : List Request) : Prop :=
  ∃ (n : Nat) (A B : Bool), (A = true → v4s ≠ []) ∧ (B = true → v6s ≠ []) ∧
    looks =
      (if A then [⟨if typ = Typ.ipv4 then v4netLookupRule else v6netAddRule, Arg.buf4 n⟩]
        else []) ++
      (if B then [⟨if typ = Typ.ipv4 then v4netLookupRule else v6netAddRule, Arg.buf6 n⟩]
        else [])

/-- The trace of one operation: the length query, the lookups, then requests
that all satisfy `P`. -/
def TraceShape (typ : Typ) (v4s : List RuleT4) (v6s : List RuleT6) (P : Request → Prop)
    (rqs : List Request) : Prop :=
  ∃ looks muts, rqs = ⟨if typ = Typ.ipv4 then v4netRuleLen else v6netAddRule, Arg.imm 0⟩ ::
      (looks ++ muts) ∧ LookupsShape typ v4s v6s looks ∧ ∀ rq ∈ muts, P rq

/-- An element of a slice of another struct type with the field layout of
RuleT4, holding the values of `ruleA`. -/
def elemA : Elem :=
  Elem.struct [FieldVal.u32 0, FieldVal.u32 0xFFFF, FieldVal.u32 0, FieldVal.u32 0,
    FieldVal.u32 0xFFFF, FieldVal.i32 0, FieldVal.u16 0, FieldVal.u16 1897, FieldVal.u16 6]

/-- An IPv6 rule that is all zero except for the source port 80. -/
def rule6Port80 : RuleT6 := ⟨0, 0, 0, 0, 0, 0, 0, 0, 80, 0, 0⟩

/-! ## Lemmas -/

theorem copyT4_id (v : RuleT4) : copyT4 v = v := by cases v; rfl

theorem map_copyT4 (xs : List RuleT4) : xs.map copyT4 = xs := by
  induction xs with
  | nil => rfl
  | cons x xs ih => simp [copyT4_id, ih]

theorem map_copyT6 (xs : List RuleT6) : xs.map copyT6 = xs := by
  induction xs with
  | nil => rfl
  | cons x xs ih => cases x; simp [copyT6, ih]

theorem readBuf_full {α : Type} (zero : α) (out : List α) :
    readBuf zero out.length out = out := by
  simp [readBuf]

theorem doCreateV6_err {σ : Type} (d : Driver σ) (typ : Typ) (v6Data : List RuleT6) (s : σ) :
    (doCreateV6 d typ v6Data s).val.err = 0 := by
  induction v6Data generalizing s with
  | nil => rfl
  | cons v rest ih =>
    simp only [doCreateV6]
    split
    · simpa [Run.prepend] using ih _
    · rename_i h
      simpa [Reply.ret] using h

theorem doCreate_err {σ : Type} (d : Driver σ) (typ : Typ) (v4Data : List RuleT4)
    (v6Data : List RuleT6) (s : σ) : (doCreate d typ v4Data v6Data s).val.err = 0 := by
  unfold doCreate
  induction v4Data generalizing s with
  | nil => simpa [doCreateV4] using doCreateV6_err d typ v6Data s
  | cons v rest ih =>
    simp only [doCreateV4]
    split
    · simpa [Run.prepend] using ih _
    · rename_i h
      simpa [Reply.ret] using h

theorem doCreate_single4 {σ : Type} (d : Driver σ) (typ : Typ) (r : RuleT4) (s : σ) :
    (doCreate d typ [r] [] s).events = [(syscallCreate d typ s (Arg.rule4 r)).2] := by
  simp only [doCreate, doCreateV4, doCreateV6]
  split <;> simp [Run.prepend]

theorem diffLoop4_requests {σ : Type} (d : Driver σ) (I : List RuleT4) (named : Ret)
    (R : List RuleT4) (s : σ) :
    (diffLoop d Typ.ipv4 doDiffMatch4 (fun out => ([out], [])) I named R s).requests =
      (R.filter (fun out => !(I.any (fun inner => doDiffMatch4 inner out)))).map
        (fun r => (⟨v4netAddRule, Arg.rule4 r⟩ : Request)) ∧
    (diffLoop d Typ.ipv4 doDiffMatch4 (fun out => ([out], [])) I named R s).val = none := by
  induction R generalizing s with
  | nil => exact ⟨rfl, rfl⟩
  | cons out rest ih =>
    simp only [diffLoop]
    by_cases h : (I.any (fun inner => doDiffMatch4 inner out)) = true
    · simp only [h, if_true]
      have := ih s
      simpa [h] using this
    · simp only [h]
      have he := doCreate_err d Typ.ipv4 [out] [] s
      have hs := doCreate_single4 d Typ.ipv4 out s
      have := ih (doCreate d Typ.ipv4 [out] [] s).st
      simp [he, Run.prepend, Run.requests, hs, h, syscallCreate, ioctlCall] 
      simpa [Run.requests] using this

theorem doDiffMatch4_iff (inner out : RuleT4) :
    doDiffMatch4 inner out = decide (inner.tuple5 = out.tuple5) := by
  simp only [doDiffMatch4, RuleT4.tuple5, Prod.mk.injEq]
  by_cases h1 : inner.SourceIp = out.SourceIp <;> by_cases h2 : inner.SourcePort = out.SourcePort <;>
  by_cases h3 : inner.DestIp = out.DestIp <;> by_cases h4 : inner.DestPort = out.DestPort <;>
  by_cases h5 : inner.Protocol = out.Protocol <;> simp [h1, h2, h3, h4, h5]

theorem selfMatch4_iff (nac r : RuleT4) :
    selfMatch4 nac r = decide (nac.tuple5 = r.tuple5) := doDiffMatch4_iff nac r

theorem deleteMatch4_iff (outer inner : RuleT4) :
    deleteMatch4 outer inner = decide (outer.tuple5 = inner.tuple5) := doDiffMatch4_iff outer inner

theorem fetch4_ok {σ : Type} (d : Driver σ) (v4s I : List RuleT4) (s : σ)
    (hv : v4s ≠ []) (hI : I ≠ [])
    (hlook : (d.ioctl s ⟨v4netLookupRule, Arg.buf4 I.length⟩).2.errno = 0)
    (hout : (d.ioctl s ⟨v4netLookupRule, Arg.buf4 I.length⟩).2.out4 = I) :
    (fetch d Typ.ipv4 v4s [] (I.length : Int) s).events =
        [(⟨v4netLookupRule, Arg.buf4 I.length⟩, (d.ioctl s ⟨v4netLookupRule, Arg.buf4 I.length⟩).2)] ∧
    (fetch d Typ.ipv4 v4s [] (I.length : Int) s).st =
        (d.ioctl s ⟨v4netLookupRule, Arg.buf4 I.length⟩).1 ∧
    ∃ named, (fetch d Typ.ipv4 v4s [] (I.length : Int) s).val = Fetched.ok I [] named := by
  have hpos : I.length ≠ 0 := by
    intro h; exact hI (List.length_eq_zero.mp h)
  have hnn : ¬ ((I.length : Int) < 0) := by omega
  simp [fetch, fetchV6, hv, hpos, hnn, syscallLookup, ioctlCall, hlook, hout, Run.prepend,
    readBuf_full]

theorem fetch_nil {σ : Type} (d : Driver σ) (typ : Typ) (n : Int) (hn : 0 ≤ n) (s : σ) :
    fetch d typ [] [] n s = ⟨s, [], Fetched.ok [] [] ⟨0, 0, 0⟩⟩ := by
  simp [fetch, fetchV6, not_lt.mpr hn]

theorem queryThen4_ok {σ : Type} (d : Driver σ) (v4s I : List RuleT4) (s : σ)
    (loops : List RuleT4 → List RuleT6 → σ → Run σ Outcome)
    (hv : v4s ≠ []) (hI : I ≠ [])
    (hcount : (d.ioctl s ⟨v4netRuleLen, Arg.imm 0⟩).2.errno = 0)
    (hlen : toInt32 (d.ioctl s ⟨v4netRuleLen, Arg.imm 0⟩).2.r1 = (I.length : Int))
    (hlook : (d.ioctl (d.ioctl s ⟨v4netRuleLen, Arg.imm 0⟩).1
      ⟨v4netLookupRule, Arg.buf4 I.length⟩).2.errno = 0)
    (hout : (d.ioctl (d.ioctl s ⟨v4netRuleLen, Arg.imm 0⟩).1
      ⟨v4netLookupRule, Arg.buf4 I.length⟩).2.out4 = I) :
    (queryThen d Typ.ipv4 v4s [] loops s).requests =
      ⟨v4netRuleLen, Arg.imm 0⟩ :: ⟨v4netLookupRule, Arg.buf4 I.length⟩ ::
        (loops I [] (d.ioctl (d.ioctl s ⟨v4netRuleLen, Arg.imm 0⟩).1
          ⟨v4netLookupRule, Arg.buf4 I.length⟩).1).requests ∧
    (queryThen d Typ.ipv4 v4s [] loops s).val =
      (loops I [] (d.ioctl (d.ioctl s ⟨v4netRuleLen, Arg.imm 0⟩).1
          ⟨v4netLookupRule, Arg.buf4 I.length⟩).1).val := by
  obtain ⟨he, hs, named, hval⟩ := fetch4_ok d v4s I _ hv hI hlook hout
  simp only [queryThen, syscallLen, ioctlCall, if_true, hcount, hlen, ne_eq,
    not_true_eq_false, if_false, hval, he, hs]
  simp [Run.requests]

theorem twoLoops4 {σ : Type} (v4s : List RuleT4) (hv : v4s ≠ [])
    (loop4 loop6 : σ → Run σ (Option Nat)) (s : σ) (h : (loop4 s).val = none) :
    (twoLoops v4s [] loop4 loop6 s).requests = (loop4 s).requests ∧
    (twoLoops v4s [] loop4 loop6 s).val = Outcome.nil := by
  simp [twoLoops, hv, h, Run.requests]

theorem selfLoop4_requests {σ : Type} (d : Driver σ) (D I : List RuleT4) (s : σ)
    (hdel : ∀ (t : σ) (r : RuleT4), (d.ioctl t ⟨v4netDelRule, Arg.rule4 r⟩).2.errno = 0) :
    (selfLoop d Typ.ipv4 selfMatch4 Arg.rule4 D I s).requests =
      (I.filter (fun nac => !(D.any (fun r => selfMatch4 nac r)))).map
        (fun i => (⟨v4netDelRule, Arg.rule4 i⟩ : Request)) ∧
    (selfLoop d Typ.ipv4 selfMatch4 Arg.rule4 D I s).val = none := by
  induction I generalizing s with
  | nil => exact ⟨rfl, rfl⟩
  | cons nac rest ih =>
    simp only [selfLoop]
    by_cases h : (D.any (fun r => selfMatch4 nac r)) = true
    · simp only [h, if_true]
      simpa [h] using ih s
    · obtain ⟨hq, hn⟩ := ih (d.ioctl s ⟨v4netDelRule, Arg.rule4 nac⟩).1
      simp only [Run.requests] at hq
      simp [h, syscallDelete, ioctlCall, hdel, Run.prepend, Run.requests, hq, hn]

theorem deleteInner4_requests {σ : Type} (d : Driver σ) (outer : RuleT4) (I : List RuleT4)
    (s : σ)
    (hdel : ∀ (t : σ) (r : RuleT4), (d.ioctl t ⟨v4netDelRule, Arg.rule4 r⟩).2.errno = 0) :
    (deleteInner d Typ.ipv4 deleteMatch4 Arg.rule4 outer I s).requests =
      (I.filter (fun inner => deleteMatch4 outer inner)).map
        (fun _ => (⟨v4netDelRule, Arg.rule4 outer⟩ : Request)) ∧
    (deleteInner d Typ.ipv4 deleteMatch4 Arg.rule4 outer I s).val = none := by
  induction I generalizing s with
  | nil => exact ⟨rfl, rfl⟩
  | cons inner rest ih =>
    simp only [deleteInner]
    by_cases h : deleteMatch4 outer inner = true
    · obtain ⟨hq, hn⟩ := ih (d.ioctl s ⟨v4netDelRule, Arg.rule4 outer⟩).1
      simp only [Run.requests] at hq
      simp [h, syscallDelete, ioctlCall, hdel, Run.prepend, Run.requests, hq, hn]
    · simp only [h]
      simpa [h] using ih s

theorem deleteLoop4_requests {σ : Type} (d : Driver σ) (R I : List RuleT4) (s : σ)
    (hdel : ∀ (t : σ) (r : RuleT4), (d.ioctl t ⟨v4netDelRule, Arg.rule4 r⟩).2.errno = 0) :
    (deleteLoop d Typ.ipv4 deleteMatch4 Arg.rule4 I R s).requests =
      (R.map (fun outer => (I.filter (fun inner => deleteMatch4 outer inner)).map
        (fun _ => (⟨v4netDelRule, Arg.rule4 outer⟩ : Request)))).flatten ∧
    (deleteLoop d Typ.ipv4 deleteMatch4 Arg.rule4 I R s).val = none := by
  induction R generalizing s with
  | nil => exact ⟨rfl, rfl⟩
  | cons outer rest ih =>
    obtain ⟨hq, hn⟩ := deleteInner4_requests d outer I s hdel
    obtain ⟨hq2, hn2⟩ := ih (deleteInner d Typ.ipv4 deleteMatch4 Arg.rule4 outer I s).st
    simp only [Run.requests] at hq hq2
    simp [deleteLoop, hn, Run.prepend, Run.requests, hq, hq2, hn2]

theorem queryThen_first {σ : Type} (d : Driver σ) (typ : Typ) (v4s : List RuleT4)
    (v6s : List RuleT6) (loops : List RuleT4 → List RuleT6 → σ → Run σ Outcome) (s : σ) :
    (queryThen d typ v4s v6s loops s).events.head? = some (syscallLen d typ s).2 := by
  simp only [queryThen]
  split
  · rfl
  · split <;> rfl

theorem selfBody_nil {σ : Type} (d : Driver σ) (typ : Typ) (s : σ)
    (hcount : (syscallLen d typ s).2.2.errno = 0)
    (hlen : 0 ≤ toInt32 (syscallLen d typ s).2.2.r1) :
    (selfBody d typ [] [] s).events = [(syscallLen d typ s).2] ∧
    (selfBody d typ [] [] s).val = Outcome.nil ∧
    (selfBody d typ [] [] s).st = (syscallLen d typ s).1 := by
  simp [selfBody, queryThen, hcount, fetch_nil, hlen, twoLoops]

theorem Clean.nil : Clean [] := by intro ev h; cases h

theorem Clean.cons {ev : Event} {evs : List Event} (h : ev.2.errno = 0) (hs : Clean evs) :
    Clean (ev :: evs) := by
  intro e he
  rcases List.mem_cons.mp he with rfl | h'
  · exact h
  · exact hs e h'

theorem Clean.append {p q : List Event} (hp : Clean p) (hq : Clean q) : Clean (p ++ q) := by
  intro e he
  rcases List.mem_append.mp he with h | h
  · exact hp e h
  · exact hq e h

theorem FailsWith.single {ev : Event} (h : ev.2.errno ≠ 0) : FailsWith [ev] ev.2.errno :=
  ⟨[], ev, rfl, Clean.nil, rfl, h⟩

theorem FailsWith.after_clean {p evs : List Event} {c : Nat} (hp : Clean p)
    (h : FailsWith evs c) : FailsWith (p ++ evs) c := by
  obtain ⟨pre, ev, rfl, hpre, he, hc⟩ := h
  exact ⟨p ++ pre, ev, by simp, hp.append hpre, he, hc⟩

theorem LoopOk.after_clean_events {σ : Type} {p : List Event} {r : Run σ (Option Nat)} (hp : Clean p)
    (h : LoopOk r) : LoopOk (r.prepend p) := by
  unfold LoopOk at *
  simp only [Run.prepend]
  cases hv : r.val with
  | none => rw [hv] at h; exact hp.append h
  | some ep => rw [hv] at h; exact h.after_clean hp

theorem selfLoop_ok {σ α : Type} (d : Driver σ) (typ : Typ) (eq : α → α → Bool)
    (mk : α → Arg) (desired installed : List α) (s : σ) :
    LoopOk (selfLoop d typ eq mk desired installed s) := by
  induction installed generalizing s with
  | nil => exact Clean.nil
  | cons nac rest ih =>
    simp only [selfLoop]
    split
    · exact ih s
    · split
      · rename_i h
        exact FailsWith.single h
      · rename_i h
        exact (ih _).after_clean_events (Clean.cons (not_not.mp h) Clean.nil)

theorem deleteInner_ok {σ α : Type} (d : Driver σ) (typ : Typ) (eq : α → α → Bool)
    (mk : α → Arg) (outer : α) (installed : List α) (s : σ) :
    LoopOk (deleteInner d typ eq mk outer installed s) := by
  induction installed generalizing s with
  | nil => exact Clean.nil
  | cons inner rest ih =>
    simp only [deleteInner]
    split
    · split
      · rename_i h
        exact FailsWith.single h
      · rename_i h
        exact (ih _).after_clean_events (Clean.cons (not_not.mp h) Clean.nil)
    · exact ih s

theorem deleteLoop_ok {σ α : Type} (d : Driver σ) (typ : Typ) (eq : α → α → Bool)
    (mk : α → Arg) (installed desired : List α) (s : σ) :
    LoopOk (deleteLoop d typ eq mk installed desired s) := by
  induction desired generalizing s with
  | nil => exact Clean.nil
  | cons outer rest ih =>
    have hin := deleteInner_ok d typ eq mk outer installed s
    simp only [deleteLoop]
    cases hv : (deleteInner d typ eq mk outer installed s).val with
    | some ep =>
      simp only [LoopOk, hv] at hin ⊢
      exact hin
    | none =>
      simp only [LoopOk, hv] at hin
      exact (ih _).after_clean_events hin

theorem twoLoops_ok {σ : Type} (v4s : List RuleT4) (v6s : List RuleT6)
    (loop4 loop6 : σ → Run σ (Option Nat)) (h4 : ∀ s, LoopOk (loop4 s))
    (h6 : ∀ s, LoopOk (loop6 s)) (s : σ) : OutcomeOk (twoLoops v4s v6s loop4 loop6 s) := by
  have g4 : ∀ t, LoopOk (if v4s ≠ [] then loop4 t else ⟨t, [], none⟩) := by
    intro t; split
    · exact h4 t
    · exact Clean.nil
  have g6 : ∀ t, LoopOk (if v6s ≠ [] then loop6 t else ⟨t, [], none⟩) := by
    intro t; split
    · exact h6 t
    · exact Clean.nil
  have a4 := g4 s
  simp only [twoLoops]
  revert a4
  generalize (if v4s ≠ [] then loop4 s else (⟨s, [], none⟩ : Run σ (Option Nat))) = l4
  intro a4
  cases hv : l4.val with
  | some ep =>
    simp only [LoopOk, hv] at a4
    simpa [OutcomeOk] using a4
  | none =>
    simp only [LoopOk, hv] at a4
    have a6 := g6 l4.st
    revert a6
    generalize (if v6s ≠ [] then loop6 l4.st else (⟨l4.st, [], none⟩ : Run σ (Option Nat))) = l6
    intro a6
    cases hv6 : l6.val with
    | some ep =>
      simp only [LoopOk, hv6] at a6
      simpa [OutcomeOk] using a6.after_clean a4
    | none =>
      simp only [LoopOk, hv6] at a6
      simpa [OutcomeOk] using a4.append a6

theorem fetchV6_ok {σ : Type} (d : Driver σ) (typ : Typ) (v6s : List RuleT6) (n : Nat)
    (v4List : List RuleT4) (named : Ret) (s : σ) :
    FetchOk (fetchV6 d typ v6s n v4List named s) := by
  by_cases h1 : v6s = []
  · simp only [fetchV6, h1, ne_eq, not_true_eq_false, if_false]
    exact Clean.nil
  · by_cases h2 : n = 0
    · simp only [fetchV6, h1, h2, ne_eq, not_false_eq_true, if_true]
      exact Clean.nil
    · by_cases h3 : (syscallLookup d typ s (Arg.buf6 n)).2.2.errno = 0
      · simp only [fetchV6, h1, h2, h3, ne_eq, not_false_eq_true, if_true, if_false,
          not_true_eq_false]
        exact Clean.cons h3 Clean.nil
      · simp only [fetchV6, h1, h2, h3, ne_eq, not_false_eq_true, if_true, if_false]
        exact FailsWith.single h3

theorem FetchOk.after_clean_lookup {σ : Type} {p : List Event} {r : Run σ Fetched} (hp : Clean p)
    (h : FetchOk r) : FetchOk (r.prepend p) := by
  unfold FetchOk at *
  simp only [Run.prepend]
  cases hv : r.val with
  | panic => rw [hv] at h; exact hp.append h
  | failed c => rw [hv] at h; exact h.after_clean hp
  | ok a b c => rw [hv] at h; exact hp.append h

theorem fetch_ok {σ : Type} (d : Driver σ) (typ : Typ) (v4s : List RuleT4)
    (v6s : List RuleT6) (n : Int) (s : σ) : FetchOk (fetch d typ v4s v6s n s) := by
  by_cases h0 : n < 0
  · simp only [fetch, h0, if_true]
    exact Clean.nil
  · by_cases h1 : v4s = []
    · simp only [fetch, h0, h1, ne_eq, not_true_eq_false, if_false]
      exact fetchV6_ok d typ v6s n.toNat [] ⟨0, 0, 0⟩ s
    · by_cases h2 : n.toNat = 0
      · simp only [fetch, h0, h1, h2, ne_eq, not_false_eq_true, if_true, if_false]
        exact Clean.nil
      · by_cases h3 : (syscallLookup d typ s (Arg.buf4 n.toNat)).2.2.errno = 0
        · simp only [fetch, h0, h1, h2, h3, ne_eq, not_false_eq_true, if_true, if_false,
            not_true_eq_false]
          exact (fetchV6_ok d typ v6s n.toNat _ _ _).after_clean_lookup (Clean.cons h3 Clean.nil)
        · simp only [fetch, h0, h1, h2, h3, ne_eq, not_false_eq_true, if_true, if_false]
          exact FailsWith.single h3

theorem queryThen_ok {σ : Type} (d : Driver σ) (typ : Typ) (v4s : List RuleT4)
    (v6s : List RuleT6) (loops : List RuleT4 → List RuleT6 → σ → Run σ Outcome)
    (hl : ∀ a b t, OutcomeOk (loops a b t)) (s : σ) :
    OutcomeOk (queryThen d typ v4s v6s loops s) := by
  simp only [queryThen]
  split
  · rename_i h
    exact FailsWith.single h
  · rename_i h
    have hc : Clean [(syscallLen d typ s).2] := Clean.cons (not_not.mp h) Clean.nil
    have hf := fetch_ok d typ v4s v6s (toInt32 (syscallLen d typ s).2.2.r1) (syscallLen d typ s).1
    revert hf
    generalize fetch d typ v4s v6s _ _ = f
    intro hf
    unfold FetchOk at hf
    cases hv : f.val with
    | panic => simp only [hv] at hf ⊢; exact hc.append hf
    | failed r => simp only [hv] at hf ⊢; exact hf.after_clean hc
    | ok a b c =>
      simp only [hv] at hf ⊢
      have ho := hl a b f.st
      revert ho
      generalize loops a b f.st = l
      intro ho
      unfold OutcomeOk at ho ⊢
      cases hlv : l.val with
      | errno c =>
        simp only [hlv] at ho ⊢
        exact (ho.after_clean hf).after_clean hc
      | nil => simp only [hlv] at ho ⊢; exact hc.append (hf.append ho)
      | unsupported => simp only [hlv] at ho ⊢; exact hc.append (hf.append ho)
      | panic => simp only [hlv] at ho ⊢; exact hc.append (hf.append ho)

theorem delete_ok {σ : Type} (b : builder) (d : Driver σ) (values : Value) (s : σ) :
    OutcomeOk (b.delete d values s).2 := by
  unfold builder.delete
  cases (b.ref values).2 with
  | unsupported => exact Clean.nil
  | panic => exact Clean.nil
  | ok v4s v6s =>
    exact queryThen_ok d _ v4s v6s _
      (fun a c t => twoLoops_ok v4s v6s _ _ (fun u => deleteLoop_ok d _ _ _ a v4s u)
        (fun u => deleteLoop_ok d _ _ _ c v6s u) t) s

theorem self_ok {σ : Type} (b : builder) (d : Driver σ) (values : Value) (s : σ) :
    OutcomeOk (b.self d values s).2 := by
  unfold builder.self
  cases (b.ref values).2 with
  | unsupported => exact Clean.nil
  | panic => exact Clean.nil
  | ok v4s v6s =>
    exact queryThen_ok d _ v4s v6s _
      (fun a c t => twoLoops_ok v4s v6s _ _ (fun u => selfLoop_ok d _ _ _ v4s a u)
        (fun u => selfLoop_ok d _ _ _ v6s c u) t) s

theorem OutcomeOk.fail_fast {σ : Type} {r : Run σ Outcome} (h : OutcomeOk r)
    (pre post : List Event) (ev : Event) (hev : r.events = pre ++ ev :: post)
    (hfail : ev.2.errno ≠ 0) : post = [] ∧ r.val = Outcome.errno ev.2.errno := by
  have hmem : ev ∈ r.events := by rw [hev]; simp
  have hnc : ¬ Clean r.events := fun hc => hfail (hc ev hmem)
  unfold OutcomeOk at h
  cases hv : r.val with
  | nil => rw [hv] at h; exact absurd h hnc
  | unsupported => rw [hv] at h; exact absurd h hnc
  | panic => rw [hv] at h; exact absurd h hnc
  | errno c =>
    rw [hv] at h
    obtain ⟨p, e, hp, hclean, he, _⟩ := h
    rw [hev] at hp
    -- pre ++ ev :: post = p ++ [e]
    rcases List.eq_nil_or_concat post with hpost | ⟨post', x, hpost⟩
    · subst hpost
      have := List.append_inj' hp rfl
      have h2 : ev = e := by simpa using this.2
      subst h2
      exact ⟨rfl, by rw [he]⟩
    · exfalso
      subst hpost
      have hp' : (pre ++ ev :: post') ++ [x] = p ++ [e] := by simpa using hp
      have := List.append_inj' hp' rfl
      have hmem' : ev ∈ p := by rw [← this.1]; simp
      exact hfail (hclean ev hmem')

/-! ## Create -/

/-- Claim C1, evaluated on the reference driver with nothing installed and the
two rules of the test: the first C installs only the first rule, so the second
C finds one rule installed, issues an add request for the second rule, and the
installed list after two calls differs from the one after one call. -/
theorem create_twice_adds_again :
    (newBuilder.C listDriver4 (Value.sliceT4 [ruleA, ruleB]) []).2.st = [ruleA] ∧
    ((newBuilder.C listDriver4 (Value.sliceT4 [ruleA, ruleB]) []).1.C listDriver4
        (Value.sliceT4 [ruleA, ruleB])
        (newBuilder.C listDriver4 (Value.sliceT4 [ruleA, ruleB]) []).2.st).2.st =
      [ruleA, ruleB] ∧
    ((newBuilder.C listDriver4 (Value.sliceT4 [ruleA, ruleB]) []).1.C listDriver4
        (Value.sliceT4 [ruleA, ruleB])
        (newBuilder.C listDriver4 (Value.sliceT4 [ruleA, ruleB]) []).2.st).2.requests =
      [⟨v4netRuleLen, Arg.imm 0⟩, ⟨v4netLookupRule, Arg.buf4 1⟩,
        ⟨v4netAddRule, Arg.rule4 ruleB⟩] := by
  decide

/-- Claim C2, evaluated on a driver whose length query returns 0 and on which
every add succeeds: C of two rules issues the length query and one add request,
for the first rule only, and returns nil. -/
theorem create_on_empty_adds_only_first :
    (newBuilder.C scriptDriver (Value.sliceT4 [ruleA, ruleB]) [Reply.ok 0]).2.requests =
      [⟨v4netRuleLen, Arg.imm 0⟩, ⟨v4netAddRule, Arg.rule4 ruleA⟩] ∧
    (newBuilder.C scriptDriver (Value.sliceT4 [ruleA, ruleB]) [Reply.ok 0]).2.val =
      Outcome.nil := by
  decide

/-- Claim C3. For an IPv4 list `R` and a non-empty installed list `I` reported
by a successful length query and lookup, C issues the length query, the lookup
(when `R` is not empty) and then one add request for each rule of `R`, in input
order, whose 5-tuple is that of no rule of `I`, and nothing else (so no delete);
it returns nil. -/
theorem create_adds_missing {σ : Type} (d : Driver σ) (b : builder) (s : σ)
    (R I : List RuleT4) (hI : I ≠ [])
    (hcount : (d.ioctl s ⟨v4netRuleLen, Arg.imm 0⟩).2.errno = 0)
    (hlen : toInt32 (d.ioctl s ⟨v4netRuleLen, Arg.imm 0⟩).2.r1 = (I.length : Int))
    (hlook : (d.ioctl (d.ioctl s ⟨v4netRuleLen, Arg.imm 0⟩).1
      ⟨v4netLookupRule, Arg.buf4 I.length⟩).2.errno = 0)
    (hout : (d.ioctl (d.ioctl s ⟨v4netRuleLen, Arg.imm 0⟩).1
      ⟨v4netLookupRule, Arg.buf4 I.length⟩).2.out4 = I) :
    (b.C d (Value.sliceT4 R) s).2.requests =
      (⟨v4netRuleLen, Arg.imm 0⟩ :: (if R = [] then []
        else [(⟨v4netLookupRule, Arg.buf4 I.length⟩ : Request)])) ++
      (R.filter (fun out => !(I.any (fun inner => decide (inner.tuple5 = out.tuple5))))).map
        (fun r => (⟨v4netAddRule, Arg.rule4 r⟩ : Request)) ∧
    (b.C d (Value.sliceT4 R) s).2.val = Outcome.nil := by
  have hpos : (I.length : Int) ≠ 0 := by
    intro h; exact hI (List.length_eq_zero.mp (by exact_mod_cast h))
  simp only [builder.C, builder.create, builder.ref, map_copyT4, createBody, syscallLen,
    ioctlCall, if_true, hcount, hlen, hpos, if_false, ne_eq, not_true_eq_false, doDiff]
  by_cases hR : R = []
  · subst hR
    simp [fetch_nil, diffLoops, diffLoop, Run.requests]
  · obtain ⟨he, hs, named, hv⟩ := fetch4_ok d R I _ hR hI hlook hout
    obtain ⟨hq, hn⟩ := diffLoop4_requests d I named R
      (d.ioctl (d.ioctl s ⟨v4netRuleLen, Arg.imm 0⟩).1 ⟨v4netLookupRule, Arg.buf4 I.length⟩).1
    simp only [hv, he, hs, diffLoops, hn, diffLoop]
    simp only [Run.requests] at hq
    simp [Run.requests, hq, hR, doDiffMatch4_iff]

/-- Claim C3 at the scenario of the specification: with `(0,0,0,1897,6)` and
`(0,0,0,999,6)` installed, C of `(0,0,0,1897,6)` and `(0,0,0,555,6)` adds
exactly `(0,0,0,555,6)`. -/
theorem create_adds_missing_witness :
    (newBuilder.C listDriver4 (Value.sliceT4 [ruleA, ruleC]) [ruleA, ruleB]).2.requests =
      [⟨v4netRuleLen, Arg.imm 0⟩, ⟨v4netLookupRule, Arg.buf4 2⟩,
        ⟨v4netAddRule, Arg.rule4 ruleC⟩] ∧
    (newBuilder.C listDriver4 (Value.sliceT4 [ruleA, ruleC]) [ruleA, ruleB]).2.val =
      Outcome.nil :=
  create_adds_missing listDriver4 newBuilder [ruleA, ruleB] [ruleA, ruleC] [ruleA, ruleB]
    (by decide) (by decide) (by decide) (by decide) (by decide)

/-- Claim C4, evaluated where an add request fails with code 5. With a length
of 0, C of two rules goes on to the second add and returns nil; with one other
rule installed (the diff path) it does the same. -/
theorem create_swallows_add_failure :
    (newBuilder.C scriptDriver (Value.sliceT4 [ruleA, ruleB])
        [Reply.ok 0, Reply.fail 5]).2.events =
      [(⟨v4netRuleLen, Arg.imm 0⟩, Reply.ok 0),
        (⟨v4netAddRule, Arg.rule4 ruleA⟩, Reply.fail 5),
        (⟨v4netAddRule, Arg.rule4 ruleB⟩, Reply.ok 0)] ∧
    (newBuilder.C scriptDriver (Value.sliceT4 [ruleA, ruleB])
        [Reply.ok 0, Reply.fail 5]).2.val = Outcome.nil ∧
    (newBuilder.C scriptDriver (Value.sliceT4 [ruleA, ruleB])
        [Reply.ok 1, Reply.rules4 [ruleC], Reply.fail 5]).2.events =
      [(⟨v4netRuleLen, Arg.imm 0⟩, Reply.ok 1),
        (⟨v4netLookupRule, Arg.buf4 1⟩, Reply.rules4 [ruleC]),
        (⟨v4netAddRule, Arg.rule4 ruleA⟩, Reply.fail 5),
        (⟨v4netAddRule, Arg.rule4 ruleB⟩, Reply.ok 0)] ∧
    (newBuilder.C scriptDriver (Value.sliceT4 [ruleA, ruleB])
        [Reply.ok 1, Reply.rules4 [ruleC], Reply.fail 5]).2.val = Outcome.nil := by
  decide

/-! ## Self -/

/-- Claim C5 as stated fails: on the reference driver with two rules installed,
Self of an empty IPv4 list issues the length query only and both rules stay
installed. -/
theorem self_empty_does_not_drain :
    ¬ ((newBuilder.Self listDriver4 (Value.sliceT4 []) [ruleA, ruleB]).2.st.length = 0) ∧
    (newBuilder.Self listDriver4 (Value.sliceT4 []) [ruleA, ruleB]).2.requests =
      [⟨v4netRuleLen, Arg.imm 0⟩] := by
  decide

/-- Claim C5, amended. When the length query succeeds and reports `n > 0`
installed rules, Self of an empty list of either family issues the length
query only (no lookup, no delete), returns nil, and leaves the driver in the
state the length query left it in. -/
theorem self_empty_only_queries_length {σ : Type} (d : Driver σ) (b : builder)
    (values : Value) (s : σ) (n : Nat)
    (hv : values = Value.sliceT4 [] ∨ values = Value.sliceT6 [])
    (hn : 0 < n)
    (hcount : (syscallLen d (b.ref values).1.typ s).2.2.errno = 0)
    (hlen : toInt32 (syscallLen d (b.ref values).1.typ s).2.2.r1 = (n : Int)) :
    (b.Self d values s).2.events = [(syscallLen d (b.ref values).1.typ s).2] ∧
    (b.Self d values s).2.val = Outcome.nil ∧
    (b.Self d values s).2.st = (syscallLen d (b.ref values).1.typ s).1 := by
  have hlen' : 0 ≤ toInt32 (syscallLen d (b.ref values).1.typ s).2.2.r1 := by
    rw [hlen]; omega
  rcases hv with rfl | rfl
  · exact selfBody_nil d Typ.ipv4 s hcount hlen'
  · exact selfBody_nil d Typ.ipv6 s hcount hlen'

/-- Claim C5, amended, on the reference driver with two rules installed. -/
theorem self_empty_only_queries_length_witness :
    (newBuilder.Self listDriver4 (Value.sliceT4 []) [ruleA, ruleB]).2.events =
      [(⟨v4netRuleLen, Arg.imm 0⟩, Reply.ok 2)] ∧
    (newBuilder.Self listDriver4 (Value.sliceT4 []) [ruleA, ruleB]).2.val = Outcome.nil ∧
    (newBuilder.Self listDriver4 (Value.sliceT4 []) [ruleA, ruleB]).2.st = [ruleA, ruleB] :=
  self_empty_only_queries_length listDriver4 newBuilder (Value.sliceT4 []) [ruleA, ruleB] 2
    (Or.inl rfl) (by decide) (by decide) (by decide)

/-- Claim C6. For a non-empty IPv4 list `D` and a non-empty installed list `I`
reported by a successful length query and lookup, with every delete succeeding,
Self issues the length query, the lookup and then one delete request for each
rule of `I`, in installed order and carrying that installed rule, whose 5-tuple
is that of no rule of `D`, and nothing else; it returns nil. -/
theorem self_prunes_extras {σ : Type} (d : Driver σ) (b : builder) (s : σ)
    (D I : List RuleT4) (hD : D ≠ []) (hI : I ≠ [])
    (hcount : (d.ioctl s ⟨v4netRuleLen, Arg.imm 0⟩).2.errno = 0)
    (hlen : toInt32 (d.ioctl s ⟨v4netRuleLen, Arg.imm 0⟩).2.r1 = (I.length : Int))
    (hlook : (d.ioctl (d.ioctl s ⟨v4netRuleLen, Arg.imm 0⟩).1
      ⟨v4netLookupRule, Arg.buf4 I.length⟩).2.errno = 0)
    (hout : (d.ioctl (d.ioctl s ⟨v4netRuleLen, Arg.imm 0⟩).1
      ⟨v4netLookupRule, Arg.buf4 I.length⟩).2.out4 = I)
    (hdel : ∀ (t : σ) (r : RuleT4), (d.ioctl t ⟨v4netDelRule, Arg.rule4 r⟩).2.errno = 0) :
    (b.Self d (Value.sliceT4 D) s).2.requests =
      [⟨v4netRuleLen, Arg.imm 0⟩, ⟨v4netLookupRule, Arg.buf4 I.length⟩] ++
      (I.filter (fun i => !(D.any (fun r => decide (i.tuple5 = r.tuple5))))).map
        (fun i => (⟨v4netDelRule, Arg.rule4 i⟩ : Request)) ∧
    (b.Self d (Value.sliceT4 D) s).2.val = Outcome.nil := by
  simp only [builder.Self, builder.self, builder.ref, map_copyT4, selfBody]
  obtain ⟨hq, hval⟩ := queryThen4_ok d D I s
    (fun v4List v6List =>
      twoLoops D [] (selfLoop d Typ.ipv4 selfMatch4 Arg.rule4 D v4List)
        (selfLoop d Typ.ipv4 selfMatch6 Arg.rule6 [] v6List)) hD hI hcount hlen hlook hout
  obtain ⟨hl, hn⟩ := selfLoop4_requests d D I
    (d.ioctl (d.ioctl s ⟨v4netRuleLen, Arg.imm 0⟩).1 ⟨v4netLookupRule, Arg.buf4 I.length⟩).1 hdel
  obtain ⟨ht, htv⟩ := twoLoops4 D hD (selfLoop d Typ.ipv4 selfMatch4 Arg.rule4 D I)
    (selfLoop d Typ.ipv4 selfMatch6 Arg.rule6 [] []) _ hn
  rw [hq, hval, ht, htv, hl]
  simp [selfMatch4_iff]

/-- Claim C6 on the reference driver: with `(0,0,0,1897,6)` and `(0,0,0,999,6)`
installed, Self of `(0,0,0,1897,6)` and `(0,0,0,555,6)` deletes exactly
`(0,0,0,999,6)`. -/
theorem self_prunes_extras_witness :
    (newBuilder.Self listDriver4 (Value.sliceT4 [ruleA, ruleC]) [ruleA, ruleB]).2.requests =
      [⟨v4netRuleLen, Arg.imm 0⟩, ⟨v4netLookupRule, Arg.buf4 2⟩,
        ⟨v4netDelRule, Arg.rule4 ruleB⟩] ∧
    (newBuilder.Self listDriver4 (Value.sliceT4 [ruleA, ruleC]) [ruleA, ruleB]).2.val =
      Outcome.nil :=
  self_prunes_extras listDriver4 newBuilder [ruleA, ruleB] [ruleA, ruleC] [ruleA, ruleB]
    (by decide) (by decide) (by decide) (by decide) (by decide) (by decide)
    (fun _ _ => rfl)

/-- Claim C7, evaluated: for every IPv6 list, builder and driver, the first
request Self issues (its length query) carries the IPv6 add-rule code 110. -/
theorem self_ipv6_first_request_is_add {σ : Type} (d : Driver σ) (b : builder)
    (D : List RuleT6) (s : σ) :
    (b.Self d (Value.sliceT6 D) s).2.requests.head? = some ⟨v6netAddRule, Arg.imm 0⟩ ∧
    v6netAddRule = 110 := by
  refine ⟨?_, rfl⟩
  have h := queryThen_first d Typ.ipv6 [] (D.map copyT6)
    (fun v4List v6List =>
      twoLoops [] (D.map copyT6) (selfLoop d Typ.ipv6 selfMatch4 Arg.rule4 [] v4List)
        (selfLoop d Typ.ipv6 selfMatch6 Arg.rule6 (D.map copyT6) v6List)) s
  simp only [builder.Self, builder.self, builder.ref, selfBody, Run.requests, List.head?_map, h]
  rfl

/-! ## Delete and Self -/

/-- Claim C8, evaluated where the length query returns 0 and the rule list is
not empty: D and Self issue the length query and then panic on the address of
the first element of the empty buffer. -/
theorem delete_self_zero_count_panics :
    (newBuilder.D listDriver4 (Value.sliceT4 [ruleA]) []).2.val = Outcome.panic ∧
    (newBuilder.D listDriver4 (Value.sliceT4 [ruleA]) []).2.events =
      [(⟨v4netRuleLen, Arg.imm 0⟩, Reply.ok 0)] ∧
    (newBuilder.Self listDriver4 (Value.sliceT4 [ruleA]) []).2.val = Outcome.panic ∧
    (newBuilder.Self listDriver4 (Value.sliceT4 [ruleA]) []).2.events =
      [(⟨v4netRuleLen, Arg.imm 0⟩, Reply.ok 0)] := by
  decide

/-- Claim C9. For a non-empty IPv4 list `R` and a non-empty installed list `I`
reported by a successful length query and lookup, with every delete succeeding,
D issues the length query, the lookup and then, for each `r` of `R` in input
order and each installed rule of `I` with the 5-tuple of `r`, one delete request
carrying `r`, and nothing else; it returns nil. When no rule of `R` has the
5-tuple of a rule of `I`, the length query and the lookup are its only
requests. -/
theorem delete_removes_matching {σ : Type} (d : Driver σ) (b : builder) (s : σ)
    (R I : List RuleT4) (hR : R ≠ []) (hI : I ≠ [])
    (hcount : (d.ioctl s ⟨v4netRuleLen, Arg.imm 0⟩).2.errno = 0)
    (hlen : toInt32 (d.ioctl s ⟨v4netRuleLen, Arg.imm 0⟩).2.r1 = (I.length : Int))
    (hlook : (d.ioctl (d.ioctl s ⟨v4netRuleLen, Arg.imm 0⟩).1
      ⟨v4netLookupRule, Arg.buf4 I.length⟩).2.errno = 0)
    (hout : (d.ioctl (d.ioctl s ⟨v4netRuleLen, Arg.imm 0⟩).1
      ⟨v4netLookupRule, Arg.buf4 I.length⟩).2.out4 = I)
    (hdel : ∀ (t : σ) (r : RuleT4), (d.ioctl t ⟨v4netDelRule, Arg.rule4 r⟩).2.errno = 0) :
    (b.D d (Value.sliceT4 R) s).2.requests =
      [⟨v4netRuleLen, Arg.imm 0⟩, ⟨v4netLookupRule, Arg.buf4 I.length⟩] ++
      (R.map (fun r => (I.filter (fun i => decide (r.tuple5 = i.tuple5))).map
        (fun _ => (⟨v4netDelRule, Arg.rule4 r⟩ : Request)))).flatten ∧
    (b.D d (Value.sliceT4 R) s).2.val = Outcome.nil ∧
    ((∀ r ∈ R, ∀ i ∈ I, r.tuple5 ≠ i.tuple5) →
      (b.D d (Value.sliceT4 R) s).2.requests =
        [⟨v4netRuleLen, Arg.imm 0⟩, ⟨v4netLookupRule, Arg.buf4 I.length⟩]) := by
  have key : (b.D d (Value.sliceT4 R) s).2.requests =
      [⟨v4netRuleLen, Arg.imm 0⟩, ⟨v4netLookupRule, Arg.buf4 I.length⟩] ++
      (R.map (fun r => (I.filter (fun i => decide (r.tuple5 = i.tuple5))).map
        (fun _ => (⟨v4netDelRule, Arg.rule4 r⟩ : Request)))).flatten ∧
    (b.D d (Value.sliceT4 R) s).2.val = Outcome.nil := by
    simp only [builder.D, builder.delete, builder.ref, map_copyT4, deleteBody]
    obtain ⟨hq, hval⟩ := queryThen4_ok d R I s
      (fun v4List v6List =>
        twoLoops R [] (deleteLoop d Typ.ipv4 deleteMatch4 Arg.rule4 v4List R)
          (deleteLoop d Typ.ipv4 deleteMatch6 Arg.rule6 v6List [])) hR hI hcount hlen hlook hout
    obtain ⟨hl, hn⟩ := deleteLoop4_requests d R I
      (d.ioctl (d.ioctl s ⟨v4netRuleLen, Arg.imm 0⟩).1 ⟨v4netLookupRule, Arg.buf4 I.length⟩).1
      hdel
    obtain ⟨ht, htv⟩ := twoLoops4 R hR (deleteLoop d Typ.ipv4 deleteMatch4 Arg.rule4 I R)
      (deleteLoop d Typ.ipv4 deleteMatch6 Arg.rule6 [] []) _ hn
    rw [hq, hval, ht, htv, hl]
    simp [deleteMatch4_iff]
  refine ⟨key.1, key.2, ?_⟩
  intro hno
  rw [key.1]
  have : (R.map (fun r => (I.filter (fun i => decide (r.tuple5 = i.tuple5))).map
        (fun _ => (⟨v4netDelRule, Arg.rule4 r⟩ : Request)))).flatten = [] := by
    simp only [List.flatten_eq_nil_iff, List.mem_map]
    rintro l ⟨r, hr, rfl⟩
    simp only [List.map_eq_nil_iff, List.filter_eq_nil_iff, decide_eq_true_eq]
    exact fun i hi => hno r hr i hi
  rw [this]; simp

/-- Claim C9 on the reference driver: with `(0,0,0,1897,6)` and `(0,0,0,999,6)`
installed, D of `(0,0,0,1897,6)` and `(0,0,0,555,6)` issues one delete, for
`(0,0,0,1897,6)`. -/
theorem delete_removes_matching_witness :
    (newBuilder.D listDriver4 (Value.sliceT4 [ruleA, ruleC]) [ruleA, ruleB]).2.requests =
      [⟨v4netRuleLen, Arg.imm 0⟩, ⟨v4netLookupRule, Arg.buf4 2⟩,
        ⟨v4netDelRule, Arg.rule4 ruleA⟩] ∧
    (newBuilder.D listDriver4 (Value.sliceT4 [ruleA, ruleC]) [ruleA, ruleB]).2.val =
      Outcome.nil :=
  ⟨(delete_removes_matching listDriver4 newBuilder [ruleA, ruleB] [ruleA, ruleC]
      [ruleA, ruleB] (by decide) (by decide) (by decide) (by decide) (by decide) (by decide)
      (fun _ _ => rfl)).1,
    (delete_removes_matching listDriver4 newBuilder [ruleA, ruleB] [ruleA, ruleC]
      [ruleA, ruleB] (by decide) (by decide) (by decide) (by decide) (by decide) (by decide)
      (fun _ _ => rfl)).2.1⟩

/-- Claim C10. For every input, builder and driver: a request of D or of Self
(length query, lookup or delete) that returns a non-zero code is the last
request of the call, and the call returns exactly that code. The requests made
before it stay as they are. -/
theorem delete_self_fail_fast {σ : Type} (d : Driver σ) (b : builder) (values : Value)
    (s : σ) (pre post : List Event) (ev : Event) (hfail : ev.2.errno ≠ 0) :
    ((b.D d values s).2.events = pre ++ ev :: post →
      post = [] ∧ (b.D d values s).2.val = Outcome.errno ev.2.errno) ∧
    ((b.Self d values s).2.events = pre ++ ev :: post →
      post = [] ∧ (b.Self d values s).2.val = Outcome.errno ev.2.errno) :=
  ⟨fun h => (delete_ok b d values s).fail_fast pre post ev h hfail,
    fun h => (self_ok b d values s).fail_fast pre post ev h hfail⟩

/-- Claim C10 where the second delete of D fails with code 13: the call stops
there and returns 13. -/
theorem delete_self_fail_fast_witness :
    (newBuilder.D scriptDriver (Value.sliceT4 [ruleA, ruleB])
      [Reply.ok 2, Reply.rules4 [ruleA, ruleB], Reply.ok 0, Reply.fail 13, Reply.ok 0]).2.val =
      Outcome.errno 13 :=
  ((delete_self_fail_fast scriptDriver newBuilder (Value.sliceT4 [ruleA, ruleB])
    [Reply.ok 2, Reply.rules4 [ruleA, ruleB], Reply.ok 0, Reply.fail 13, Reply.ok 0]
    [(⟨v4netRuleLen, Arg.imm 0⟩, Reply.ok 2),
      (⟨v4netLookupRule, Arg.buf4 2⟩, Reply.rules4 [ruleA, ruleB]),
      (⟨v4netDelRule, Arg.rule4 ruleA⟩, Reply.ok 0)]
    [] (⟨v4netDelRule, Arg.rule4 ruleB⟩, Reply.fail 13) (by decide)).1 (by decide)).2

/-! ## Lemmas on the requests of a call -/

theorem requests_prepend {σ α : Type} (evs : List Event) (r : Run σ α) :
    (r.prepend evs).requests = evs.map Prod.fst ++ r.requests := by
  simp [Run.prepend, Run.requests]

theorem doCreateV6_all {σ : Type} (d : Driver σ) (typ : Typ) (P : Request → Prop)
    (v6Data : List RuleT6) (s : σ)
    (h6 : ∀ v ∈ v6Data, P ⟨if typ = Typ.ipv4 then v4netAddRule else v6netAddRule, Arg.rule6 v⟩) :
    ∀ rq ∈ (doCreateV6 d typ v6Data s).requests, P rq := by
  induction v6Data generalizing s with
  | nil => intro rq h; simp [doCreateV6, Run.requests] at h
  | cons v rest ih =>
    have hv := h6 v (List.mem_cons_self _ _)
    have hr := fun t => ih t (fun w hw => h6 w (List.mem_cons_of_mem _ hw))
    intro rq h
    simp only [doCreateV6] at h
    split at h
    · rw [requests_prepend] at h
      rcases List.mem_append.mp h with h | h
      · simp [syscallCreate, ioctlCall] at h
        rw [h]; exact hv
      · exact hr _ rq h
    · simp [Run.requests, syscallCreate, ioctlCall] at h
      rw [h]; exact hv

theorem doCreate_all {σ : Type} (d : Driver σ) (typ : Typ) (P : Request → Prop)
    (v4Data : List RuleT4) (v6Data : List RuleT6) (s : σ)
    (h4 : ∀ v ∈ v4Data, P ⟨if typ = Typ.ipv4 then v4netAddRule else v6netAddRule, Arg.rule4 v⟩)
    (h6 : ∀ v ∈ v6Data, P ⟨if typ = Typ.ipv4 then v4netAddRule else v6netAddRule, Arg.rule6 v⟩) :
    ∀ rq ∈ (doCreate d typ v4Data v6Data s).requests, P rq := by
  unfold doCreate
  induction v4Data generalizing s with
  | nil => simpa [doCreateV4] using doCreateV6_all d typ P v6Data s h6
  | cons v rest ih =>
    have hv := h4 v (List.mem_cons_self _ _)
    have hr := fun t => ih t (fun w hw => h4 w (List.mem_cons_of_mem _ hw))
    intro rq h
    simp only [doCreateV4] at h
    split at h
    · rw [requests_prepend] at h
      rcases List.mem_append.mp h with h | h
      · simp [syscallCreate, ioctlCall] at h
        rw [h]; exact hv
      · exact hr _ rq h
    · simp [Run.requests, syscallCreate, ioctlCall] at h
      rw [h]; exact hv

theorem diffLoop_all {σ α : Type} (d : Driver σ) (typ : Typ) (eq : α → α → Bool)
    (one : α → List RuleT4 × List RuleT6) (installed : List α) (named : Ret)
    (P : Request → Prop) (R : List α) (s : σ)
    (h : ∀ out ∈ R, ∀ t, ∀ rq ∈ (doCreate d typ (one out).1 (one out).2 t).requests, P rq) :
    ∀ rq ∈ (diffLoop d typ eq one installed named R s).requests, P rq := by
  induction R generalizing s with
  | nil => intro rq h; simp [diffLoop, Run.requests] at h
  | cons out rest ih =>
    have ho := h out (List.mem_cons_self _ _)
    have hr := fun t => ih t (fun w hw => h w (List.mem_cons_of_mem _ hw))
    intro rq hq
    simp only [diffLoop] at hq
    split at hq
    · exact hr _ rq hq
    · split at hq
      · exact ho _ rq hq
      · rw [requests_prepend] at hq
        rcases List.mem_append.mp hq with hq | hq
        · exact ho _ rq hq
        · exact hr _ rq hq


theorem diffLoops_all {σ : Type} (d : Driver σ) (typ : Typ) (P : Request → Prop)
    (v4Data : List RuleT4) (v6Data : List RuleT6) (v4s : List RuleT4) (v6s : List RuleT6)
    (named : Ret) (s : σ)
    (h4 : ∀ v ∈ v4Data, P ⟨if typ = Typ.ipv4 then v4netAddRule else v6netAddRule, Arg.rule4 v⟩)
    (h6 : ∀ v ∈ v6Data, P ⟨if typ = Typ.ipv4 then v4netAddRule else v6netAddRule, Arg.rule6 v⟩) :
    ∀ rq ∈ (diffLoops d typ v4Data v6Data v4s v6s named s).requests, P rq := by
  have a4 : ∀ t, ∀ rq ∈ (diffLoop d typ doDiffMatch4 (fun out => ([out], v6Data)) v4s named
      v4Data t).requests, P rq := fun t =>
    diffLoop_all d typ _ _ _ _ P v4Data t (fun out ho u =>
      doCreate_all d typ P [out] v6Data u
        (fun v hv => by rw [List.mem_singleton.mp hv]; exact h4 out ho) h6)
  have a6 : ∀ t, ∀ rq ∈ (diffLoop d typ doDiffMatch6 (fun out => (v4Data, [out])) v6s named
      v6Data t).requests, P rq := fun t =>
    diffLoop_all d typ _ _ _ _ P v6Data t (fun out ho u =>
      doCreate_all d typ P v4Data [out] u h4
        (fun v hv => by rw [List.mem_singleton.mp hv]; exact h6 out ho))
  intro rq hq
  simp only [diffLoops] at hq
  split at hq
  · exact a4 _ rq hq
  · split at hq
    · simp only [Run.requests, List.map_append, List.mem_append] at hq
      rcases hq with hq | hq
      · exact a4 _ rq hq
      · exact a6 _ rq hq
    · simp only [Run.requests, List.map_append, List.mem_append] at hq
      rcases hq with hq | hq
      · exact a4 _ rq hq
      · exact a6 _ rq hq

theorem deleteInner_all {σ α : Type} (d : Driver σ) (typ : Typ) (eq : α → α → Bool)
    (mk : α → Arg) (P : Request → Prop) (outer : α) (installed : List α) (s : σ)
    (h : P ⟨if typ = Typ.ipv4 then v4netDelRule else v6netAddRule, mk outer⟩) :
    ∀ rq ∈ (deleteInner d typ eq mk outer installed s).requests, P rq := by
  induction installed generalizing s with
  | nil => intro rq h; simp [deleteInner, Run.requests] at h
  | cons inner rest ih =>
    intro rq hq
    simp only [deleteInner] at hq
    split at hq
    · split at hq
      · simp [Run.requests, syscallDelete, ioctlCall] at hq
        rw [hq]; exact h
      · rw [requests_prepend] at hq
        rcases List.mem_append.mp hq with hq | hq
        · simp [syscallDelete, ioctlCall] at hq
          rw [hq]; exact h
        · exact ih _ rq hq
    · exact ih _ rq hq

theorem deleteLoop_all {σ α : Type} (d : Driver σ) (typ : Typ) (eq : α → α → Bool)
    (mk : α → Arg) (P : Request → Prop) (installed desired : List α) (s : σ)
    (h : ∀ x ∈ desired, P ⟨if typ = Typ.ipv4 then v4netDelRule else v6netAddRule, mk x⟩) :
    ∀ rq ∈ (deleteLoop d typ eq mk installed desired s).requests, P rq := by
  induction desired generalizing s with
  | nil => intro rq h; simp [deleteLoop, Run.requests] at h
  | cons outer rest ih =>
    have ho := deleteInner_all d typ eq mk P outer installed s (h outer (List.mem_cons_self _ _))
    have hr := fun t => ih t (fun w hw => h w (List.mem_cons_of_mem _ hw))
    intro rq hq
    simp only [deleteLoop] at hq
    split at hq
    · exact ho rq hq
    · rw [requests_prepend] at hq
      rcases List.mem_append.mp hq with hq | hq
      · exact ho rq hq
      · exact hr _ rq hq

theorem selfLoop_all {σ α : Type} (d : Driver σ) (typ : Typ) (eq : α → α → Bool)
    (mk : α → Arg) (P : Request → Prop) (desired installed : List α) (s : σ)
    (h : ∀ x ∈ installed, P ⟨if typ = Typ.ipv4 then v4netDelRule else v6netAddRule, mk x⟩) :
    ∀ rq ∈ (selfLoop d typ eq mk desired installed s).requests, P rq := by
  induction installed generalizing s with
  | nil => intro rq h; simp [selfLoop, Run.requests] at h
  | cons nac rest ih =>
    have hn := h nac (List.mem_cons_self _ _)
    have hr := fun t => ih t (fun w hw => h w (List.mem_cons_of_mem _ hw))
    intro rq hq
    simp only [selfLoop] at hq
    split at hq
    · exact hr _ rq hq
    · split at hq
      · simp [Run.requests, syscallDelete, ioctlCall] at hq
        rw [hq]; exact hn
      · rw [requests_prepend] at hq
        rcases List.mem_append.mp hq with hq | hq
        · simp [syscallDelete, ioctlCall] at hq
          rw [hq]; exact hn
        · exact hr _ rq hq

theorem twoLoops_all {σ : Type} (v4s : List RuleT4) (v6s : List RuleT6)
    (loop4 loop6 : σ → Run σ (Option Nat)) (P : Request → Prop) (s : σ)
    (h4 : v4s ≠ [] → ∀ t, ∀ rq ∈ (loop4 t).requests, P rq)
    (h6 : v6s ≠ [] → ∀ t, ∀ rq ∈ (loop6 t).requests, P rq) :
    ∀ rq ∈ (twoLoops v4s v6s loop4 loop6 s).requests, P rq := by
  have g4 : ∀ t, ∀ rq ∈ (if v4s ≠ [] then loop4 t
      else (⟨t, [], none⟩ : Run σ (Option Nat))).requests, P rq := by
    intro t rq hq
    split at hq
    · rename_i hv; exact h4 hv t rq hq
    · simp [Run.requests] at hq
  have g6 : ∀ t, ∀ rq ∈ (if v6s ≠ [] then loop6 t
      else (⟨t, [], none⟩ : Run σ (Option Nat))).requests, P rq := by
    intro t rq hq
    split at hq
    · rename_i hv; exact h6 hv t rq hq
    · simp [Run.requests] at hq
  intro rq hq
  simp only [twoLoops] at hq
  split at hq
  · exact g4 _ rq hq
  · split at hq
    · simp only [Run.requests, List.map_append, List.mem_append] at hq
      rcases hq with hq | hq
      · exact g4 _ rq hq
      · exact g6 _ rq hq
    · simp only [Run.requests, List.map_append, List.mem_append] at hq
      rcases hq with hq | hq
      · exact g4 _ rq hq
      · exact g6 _ rq hq


theorem fetchV6_shape {σ : Type} (d : Driver σ) (typ : Typ) (v6s : List RuleT6) (n : Nat)
    (v4List : List RuleT4) (named : Ret) (s : σ) :
    ∃ B : Bool, (B = true → v6s ≠ []) ∧
      (fetchV6 d typ v6s n v4List named s).requests =
        (if B then [⟨if typ = Typ.ipv4 then v4netLookupRule else v6netAddRule, Arg.buf6 n⟩]
          else []) := by
  by_cases h1 : v6s = []
  · exact ⟨false, by simp, by simp [fetchV6, h1, Run.requests]⟩
  · by_cases h2 : n = 0
    · exact ⟨false, by simp, by simp [fetchV6, h1, h2, Run.requests]⟩
    · refine ⟨true, fun _ => h1, ?_⟩
      simp only [fetchV6, h1, h2, ne_eq, not_false_eq_true, if_true, if_false]
      split <;> simp [Run.requests, syscallLookup, ioctlCall]

theorem fetch_shape {σ : Type} (d : Driver σ) (typ : Typ) (v4s : List RuleT4)
    (v6s : List RuleT6) (n : Int) (s : σ) :
    LookupsShape typ v4s v6s (fetch d typ v4s v6s n s).requests := by
  by_cases h0 : n < 0
  · exact ⟨0, false, false, by simp, by simp, by simp [fetch, h0, Run.requests]⟩
  · by_cases h1 : v4s = []
    · obtain ⟨B, hB, hq⟩ := fetchV6_shape d typ v6s n.toNat [] ⟨0, 0, 0⟩ s
      refine ⟨n.toNat, false, B, by simp, hB, ?_⟩
      simp only [fetch, h0, h1, ne_eq, not_true_eq_false, if_false]
      simpa using hq
    · by_cases h2 : n.toNat = 0
      · exact ⟨0, false, false, by simp, by simp, by simp [fetch, h0, h1, h2, Run.requests]⟩
      · by_cases h3 : (syscallLookup d typ s (Arg.buf4 n.toNat)).2.2.errno = 0
        · obtain ⟨B, hB, hq⟩ := fetchV6_shape d typ v6s n.toNat
            (readBuf RuleT4.zero n.toNat (syscallLookup d typ s (Arg.buf4 n.toNat)).2.2.out4)
            (syscallLookup d typ s (Arg.buf4 n.toNat)).2.2.ret
            (syscallLookup d typ s (Arg.buf4 n.toNat)).1
          refine ⟨n.toNat, true, B, fun _ => h1, hB, ?_⟩
          simp only [fetch, h0, h1, h2, h3, ne_eq, not_false_eq_true, if_true, if_false,
            not_true_eq_false, requests_prepend, hq]
          simp [syscallLookup, ioctlCall]
        · refine ⟨n.toNat, true, false, fun _ => h1, by simp, ?_⟩
          simp only [fetch, h0, h1, h2, h3, ne_eq, not_false_eq_true, if_true, if_false]
          simp [Run.requests, syscallLookup, ioctlCall]

theorem queryThen_shape {σ : Type} (d : Driver σ) (typ : Typ) (v4s : List RuleT4)
    (v6s : List RuleT6) (loops : List RuleT4 → List RuleT6 → σ → Run σ Outcome)
    (P : Request → Prop) (s : σ)
    (hl : ∀ a b t, ∀ rq ∈ (loops a b t).requests, P rq) :
    TraceShape typ v4s v6s P (queryThen d typ v4s v6s loops s).requests := by
  have hnone : LookupsShape typ v4s v6s [] := ⟨0, false, false, by simp, by simp, by simp⟩
  simp only [queryThen]
  split
  · exact ⟨[], [], by simp [Run.requests, syscallLen, ioctlCall], hnone, by simp⟩
  · have hf := fetch_shape d typ v4s v6s (toInt32 (syscallLen d typ s).2.2.r1)
      (syscallLen d typ s).1
    revert hf
    generalize fetch d typ v4s v6s _ _ = f
    intro hf
    cases hv : f.val with
    | panic =>
      exact ⟨f.requests, [], by simp [Run.requests, syscallLen, ioctlCall], hf, by simp⟩
    | failed r =>
      exact ⟨f.requests, [], by simp [Run.requests, syscallLen, ioctlCall], hf, by simp⟩
    | ok a b c =>
      exact ⟨f.requests, (loops a b f.st).requests,
        by simp [Run.requests, syscallLen, ioctlCall], hf, hl a b f.st⟩

theorem createBody_shape {σ : Type} (d : Driver σ) (typ : Typ) (v4s : List RuleT4)
    (v6s : List RuleT6) (P : Request → Prop) (s : σ)
    (h4 : ∀ v ∈ v4s, P ⟨if typ = Typ.ipv4 then v4netAddRule else v6netAddRule, Arg.rule4 v⟩)
    (h6 : ∀ v ∈ v6s, P ⟨if typ = Typ.ipv4 then v4netAddRule else v6netAddRule, Arg.rule6 v⟩) :
    TraceShape typ v4s v6s P (createBody d typ v4s v6s s).requests := by
  have hnone : LookupsShape typ v4s v6s [] := ⟨0, false, false, by simp, by simp, by simp⟩
  simp only [createBody]
  split
  · exact ⟨[], [], by simp [Run.requests, syscallLen, ioctlCall], hnone, by simp⟩
  · split
    · have hc := doCreate_all d typ P v4s v6s (syscallLen d typ s).1 h4 h6
      split
      · exact ⟨[], _, by simp [Run.requests, syscallLen, ioctlCall], hnone, hc⟩
      · exact ⟨[], _, by simp [Run.requests, syscallLen, ioctlCall], hnone, hc⟩
    · have hf := fetch_shape d typ v4s v6s (toInt32 (syscallLen d typ s).2.2.r1)
        (syscallLen d typ s).1
      simp only [doDiff]
      revert hf
      generalize fetch d typ v4s v6s _ _ = f
      intro hf
      cases hv : f.val with
      | panic =>
        exact ⟨f.requests, [], by simp [Run.requests, syscallLen, ioctlCall], hf, by simp⟩
      | failed r =>
        refine ⟨f.requests, [], ?_, hf, by simp⟩
        simp only []
        split <;> simp [Run.requests, syscallLen, ioctlCall]
      | ok a b c =>
        have hd := diffLoops_all d typ P v4s v6s a b c f.st h4 h6
        refine ⟨f.requests, _, ?_, hf, hd⟩
        simp only []
        split <;> simp [Run.requests, syscallLen, ioctlCall]


theorem create4_shape {σ : Type} (d : Driver σ) (b : builder) (xs : List RuleT4) (s : σ) :
    TraceShape Typ.ipv4 xs [] (fun rq => ∃ v, rq = ⟨v4netAddRule, Arg.rule4 v⟩)
      (b.C d (Value.sliceT4 xs) s).2.requests := by
  simp only [builder.C, builder.create, builder.ref, map_copyT4]
  exact createBody_shape d Typ.ipv4 xs [] _ s (fun v _ => ⟨v, rfl⟩) (by simp)

theorem delete4_shape {σ : Type} (d : Driver σ) (b : builder) (xs : List RuleT4) (s : σ) :
    TraceShape Typ.ipv4 xs [] (fun rq => ∃ v, rq = ⟨v4netDelRule, Arg.rule4 v⟩)
      (b.D d (Value.sliceT4 xs) s).2.requests := by
  simp only [builder.D, builder.delete, builder.ref, map_copyT4, deleteBody]
  exact queryThen_shape d Typ.ipv4 xs [] _ _ s (fun a c t =>
    twoLoops_all xs [] _ _ _ t
      (fun _ u => deleteLoop_all d Typ.ipv4 _ _ _ a xs u (fun x _ => ⟨x, rfl⟩))
      (fun h => absurd rfl h))

theorem self4_shape {σ : Type} (d : Driver σ) (b : builder) (xs : List RuleT4) (s : σ) :
    TraceShape Typ.ipv4 xs [] (fun rq => ∃ v, rq = ⟨v4netDelRule, Arg.rule4 v⟩)
      (b.Self d (Value.sliceT4 xs) s).2.requests := by
  simp only [builder.Self, builder.self, builder.ref, map_copyT4, selfBody]
  exact queryThen_shape d Typ.ipv4 xs [] _ _ s (fun a c t =>
    twoLoops_all xs [] _ _ _ t
      (fun _ u => selfLoop_all d Typ.ipv4 _ _ _ xs a u (fun x _ => ⟨x, rfl⟩))
      (fun h => absurd rfl h))

theorem create6_shape {σ : Type} (d : Driver σ) (b : builder) (ys : List RuleT6) (s : σ) :
    TraceShape Typ.ipv6 [] ys (fun rq => ∃ v, rq = ⟨v6netAddRule, Arg.rule6 v⟩)
      (b.C d (Value.sliceT6 ys) s).2.requests := by
  simp only [builder.C, builder.create, builder.ref, map_copyT6]
  exact createBody_shape d Typ.ipv6 [] ys _ s (by simp) (fun v _ => ⟨v, rfl⟩)

theorem delete6_shape {σ : Type} (d : Driver σ) (b : builder) (ys : List RuleT6) (s : σ) :
    TraceShape Typ.ipv6 [] ys (fun rq => ∃ v, rq = ⟨v6netAddRule, Arg.rule6 v⟩)
      (b.D d (Value.sliceT6 ys) s).2.requests := by
  simp only [builder.D, builder.delete, builder.ref, map_copyT6, deleteBody]
  exact queryThen_shape d Typ.ipv6 [] ys _ _ s (fun a c t =>
    twoLoops_all [] ys _ _ _ t (fun h => absurd rfl h)
      (fun _ u => deleteLoop_all d Typ.ipv6 _ _ _ c ys u (fun x _ => ⟨x, rfl⟩)))

theorem self6_shape {σ : Type} (d : Driver σ) (b : builder) (ys : List RuleT6) (s : σ) :
    TraceShape Typ.ipv6 [] ys (fun rq => ∃ v, rq = ⟨v6netAddRule, Arg.rule6 v⟩)
      (b.Self d (Value.sliceT6 ys) s).2.requests := by
  simp only [builder.Self, builder.self, builder.ref, map_copyT6, selfBody]
  exact queryThen_shape d Typ.ipv6 [] ys _ _ s (fun a c t =>
    twoLoops_all [] ys _ _ _ t (fun h => absurd rfl h)
      (fun _ u => selfLoop_all d Typ.ipv6 _ _ _ ys c u (fun x _ => ⟨x, rfl⟩)))

theorem TraceShape.ordered_v4 {xs : List RuleT4} {code : Nat} {rqs : List Request}
    (h : TraceShape Typ.ipv4 xs [] (fun rq => ∃ v, rq = ⟨code, Arg.rule4 v⟩) rqs) :
    OrderedV4 code rqs := by
  obtain ⟨looks, muts, hr, ⟨n, A, B, _, hB, hl⟩, hm⟩ := h
  have hB' : B = false := by
    cases B with
    | false => rfl
    | true => exact absurd rfl (hB rfl)
  subst hB'
  refine ⟨muts, ?_, hm⟩
  cases A with
  | false => left; simpa [hl] using hr
  | true => right; exact ⟨n, by simpa [hl] using hr⟩

theorem TraceShape.all_v4_requests {xs : List RuleT4} {code : Nat} {rqs : List Request}
    (hmut : code ∈ v4Codes)
    (h : TraceShape Typ.ipv4 xs [] (fun rq => ∃ v, rq = ⟨code, Arg.rule4 v⟩) rqs) :
    ∀ rq ∈ rqs, IsV4Request rq := by
  obtain ⟨muts, hs, hm⟩ := h.ordered_v4
  have hcodes : ∀ c ∈ v4Codes, c ∉ v6Codes := by decide
  have hlen : IsV4Request ⟨v4netRuleLen, Arg.imm 0⟩ := by
    refine ⟨by decide, by decide, rfl⟩
  have hlook : ∀ n, IsV4Request ⟨v4netLookupRule, Arg.buf4 n⟩ := fun n =>
    ⟨(by decide : v4netLookupRule ∈ v4Codes), (by decide : v4netLookupRule ∉ v6Codes), rfl⟩
  have hmuts : ∀ rq ∈ muts, IsV4Request rq := by
    intro rq hq
    obtain ⟨v, rfl⟩ := hm rq hq
    exact ⟨hmut, hcodes _ hmut, rfl⟩
  intro rq hq
  rcases hs with hs | ⟨n, hs⟩
  · rw [hs] at hq
    rcases List.mem_cons.mp hq with rfl | hq
    · exact hlen
    · exact hmuts rq hq
  · rw [hs] at hq
    rcases List.mem_cons.mp hq with rfl | hq
    · exact hlen
    · rcases List.mem_cons.mp hq with rfl | hq
      · exact hlook n
      · exact hmuts rq hq

theorem TraceShape.all_v6_requests {ys : List RuleT6} {rqs : List Request}
    (h : TraceShape Typ.ipv6 [] ys (fun rq => ∃ v, rq = ⟨v6netAddRule, Arg.rule6 v⟩) rqs) :
    ∀ rq ∈ rqs, IsV6Request rq ∧ rq.signal = v6netAddRule := by
  obtain ⟨looks, muts, hr, ⟨n, A, B, hA, _, hl⟩, hm⟩ := h
  have hA' : A = false := by
    cases A with
    | false => rfl
    | true => exact absurd rfl (hA rfl)
  subst hA'
  have hany : ∀ a, a.isV4 = false → IsV6Request ⟨v6netAddRule, a⟩ ∧
      (⟨v6netAddRule, a⟩ : Request).signal = v6netAddRule := fun a ha =>
    ⟨⟨(by decide : v6netAddRule ∈ v6Codes), (by decide : v6netAddRule ∉ v4Codes), ha⟩, rfl⟩
  intro rq hq
  rw [hr, hl] at hq
  simp only [Bool.false_eq_true, if_false, List.nil_append, List.mem_cons,
    List.mem_append] at hq
  rcases hq with rfl | hq | hq
  · simpa using hany (Arg.imm 0) rfl
  · cases B with
    | false => simp at hq
    | true =>
      simp only [if_true, List.mem_singleton] at hq
      rw [hq]
      simpa using hany (Arg.buf6 n) rfl
  · obtain ⟨v, rfl⟩ := hm rq hq
    exact hany (Arg.rule6 v) rfl


/-! ## Projection -/

/-- Claim C11, evaluated. No slice of another element type is rejected by ref,
whatever the builder's state. On a fresh builder ref of a one-element slice of
a non-struct type returns two empty lists and a nil error, and C, D and Self
each go on to issue a request (the length query, with code 110, since `typ` is
still empty) and return nil. On a builder left at `ipv4` the same input makes
C panic. -/
theorem ref_accepts_other_slices :
    (∀ (b : builder) (xs : List Elem),
      (b.ref (Value.sliceOther xs)).2 ≠ RefResult.unsupported) ∧
    newBuilder.ref (Value.sliceOther [Elem.nonStruct]) = (newBuilder, RefResult.ok [] []) ∧
    (newBuilder.C scriptDriver (Value.sliceOther [Elem.nonStruct]) []).2.requests =
      [⟨v6netAddRule, Arg.imm 0⟩] ∧
    (newBuilder.C scriptDriver (Value.sliceOther [Elem.nonStruct]) []).2.val = Outcome.nil ∧
    (newBuilder.D scriptDriver (Value.sliceOther [Elem.nonStruct]) []).2.requests =
      [⟨v6netAddRule, Arg.imm 0⟩] ∧
    (newBuilder.D scriptDriver (Value.sliceOther [Elem.nonStruct]) []).2.val = Outcome.nil ∧
    (newBuilder.Self scriptDriver (Value.sliceOther [Elem.nonStruct]) []).2.requests =
      [⟨v6netAddRule, Arg.imm 0⟩] ∧
    (newBuilder.Self scriptDriver (Value.sliceOther [Elem.nonStruct]) []).2.val =
      Outcome.nil ∧
    ((⟨Typ.ipv4⟩ : builder).C scriptDriver (Value.sliceOther [Elem.nonStruct]) []).2.val =
      Outcome.panic := by
  refine ⟨?_, by decide, by decide, by decide, by decide, by decide, by decide, by decide,
    by decide⟩
  intro b xs
  cases b with
  | mk typ =>
    cases typ with
    | unset => simp [builder.ref]
    | ipv4 =>
      simp only [builder.ref]
      cases convertAll elemT4 xs <;> simp
    | ipv6 =>
      simp only [builder.ref]
      cases convertAll elemT6 xs <;> simp

/-- Claim C19, evaluated. For a slice of another struct type laid out like
RuleT4, the result of ref depends on the `typ` an earlier call left: two empty
lists on a fresh builder, the converted rule on a builder left at `ipv4`, a
panic on one left at `ipv6`. So Self of that input on a fresh builder issues
a request with code 110, while after a C of IPv4 rules on the same builder it
issues IPv4 requests and deletes an installed rule. -/
theorem ref_result_depends_on_earlier_typ :
    (⟨Typ.unset⟩ : builder).ref (Value.sliceOther [elemA]) =
      (⟨Typ.unset⟩, RefResult.ok [] []) ∧
    (⟨Typ.ipv4⟩ : builder).ref (Value.sliceOther [elemA]) =
      (⟨Typ.ipv4⟩, RefResult.ok [ruleA] []) ∧
    (⟨Typ.ipv6⟩ : builder).ref (Value.sliceOther [elemA]) =
      (⟨Typ.ipv6⟩, RefResult.panic) ∧
    (newBuilder.Self listDriver4 (Value.sliceOther [elemA]) [ruleA, ruleB]).2.requests =
      [⟨v6netAddRule, Arg.imm 0⟩] ∧
    ((newBuilder.C listDriver4 (Value.sliceT4 [ruleA]) [ruleA, ruleB]).1.Self listDriver4
      (Value.sliceOther [elemA])
      (newBuilder.C listDriver4 (Value.sliceT4 [ruleA]) [ruleA, ruleB]).2.st).2.requests =
      [⟨v4netRuleLen, Arg.imm 0⟩, ⟨v4netLookupRule, Arg.buf4 2⟩,
        ⟨v4netDelRule, Arg.rule4 ruleB⟩] := by
  decide

/-- Claim C20. For every builder, ref of a `[]RuleT4` returns a nil error,
sets the family to `ipv4`, and returns the input rules themselves as the IPv4
list (same length, same order, duplicates kept, each rule with its nine data
fields unchanged) and an empty IPv6 list; symmetrically for a `[]RuleT6` with
its eleven data fields and the family `ipv6`. -/
theorem ref_preserves_rules (b : builder) (xs : List RuleT4) (ys : List RuleT6) :
    b.ref (Value.sliceT4 xs) = (⟨Typ.ipv4⟩, RefResult.ok xs []) ∧
    b.ref (Value.sliceT6 ys) = (⟨Typ.ipv6⟩, RefResult.ok [] ys) := by
  simp [builder.ref, map_copyT4, map_copyT6]

/-! ## The match predicates -/

/-- Claim C12. Each of the three IPv4 match conditions (doDiff, delete, self)
holds exactly when source address, source port, destination address,
destination port and protocol of the installed and the desired rule are equal.
A rule whose four extern fields are replaced by any values still matches the
original, and a rule in which one of the five tuple fields is replaced matches
the original exactly when the new value equals the old one. -/
theorem ipv4_match_exact (desired installed : RuleT4) (a b c x : Nat) (e : Int) :
    (doDiffMatch4 installed desired = true ↔
      installed.SourceIp = desired.SourceIp ∧ installed.SourcePort = desired.SourcePort ∧
      installed.DestIp = desired.DestIp ∧ installed.DestPort = desired.DestPort ∧
      installed.Protocol = desired.Protocol) ∧
    (deleteMatch4 desired installed = true ↔
      installed.SourceIp = desired.SourceIp ∧ installed.SourcePort = desired.SourcePort ∧
      installed.DestIp = desired.DestIp ∧ installed.DestPort = desired.DestPort ∧
      installed.Protocol = desired.Protocol) ∧
    (selfMatch4 installed desired = true ↔
      installed.SourceIp = desired.SourceIp ∧ installed.SourcePort = desired.SourcePort ∧
      installed.DestIp = desired.DestIp ∧ installed.DestPort = desired.DestPort ∧
      installed.Protocol = desired.Protocol) ∧
    doDiffMatch4 ⟨desired.SourceIp, a, b, desired.DestIp, c, e, desired.SourcePort,
      desired.DestPort, desired.Protocol⟩ desired = true ∧
    deleteMatch4 desired ⟨desired.SourceIp, a, b, desired.DestIp, c, e, desired.SourcePort,
      desired.DestPort, desired.Protocol⟩ = true ∧
    selfMatch4 ⟨desired.SourceIp, a, b, desired.DestIp, c, e, desired.SourcePort,
      desired.DestPort, desired.Protocol⟩ desired = true ∧
    doDiffMatch4 { desired with SourceIp := x } desired = (x == desired.SourceIp) ∧
    doDiffMatch4 { desired with SourcePort := x } desired = (x == desired.SourcePort) ∧
    doDiffMatch4 { desired with DestIp := x } desired = (x == desired.DestIp) ∧
    doDiffMatch4 { desired with DestPort := x } desired = (x == desired.DestPort) ∧
    doDiffMatch4 { desired with Protocol := x } desired = (x == desired.Protocol) := by
  refine ⟨?_, ?_, ?_, ?_, ?_, ?_, ?_, ?_, ?_, ?_, ?_⟩
  · simp only [doDiffMatch4, Bool.and_eq_true, beq_iff_eq, and_assoc]
  · simp only [deleteMatch4, Bool.and_eq_true, beq_iff_eq, and_assoc]
    constructor <;> rintro ⟨h1, h2, h3, h4, h5⟩ <;>
      exact ⟨h1.symm, h2.symm, h3.symm, h4.symm, h5.symm⟩
  · simp only [selfMatch4, Bool.and_eq_true, beq_iff_eq, and_assoc]
  · simp [doDiffMatch4]
  · simp [deleteMatch4]
  · simp [selfMatch4]
  · simp [doDiffMatch4]
  · simp [doDiffMatch4]
  · simp [doDiffMatch4]
  · simp [doDiffMatch4]
  · simp [doDiffMatch4]

/-- Claim C13, evaluated. None of the three IPv6 match conditions looks at the
source port: a rule whose source port is replaced by any value still matches
the original. In particular the all-zero rule and the rule that differs from it
only by source port 80 are different rules that match. -/
theorem ipv6_match_ignores_source_port (r : RuleT6) (p : Nat) :
    doDiffMatch6 ⟨r.Sourceippart1, r.Sourceippart2, r.Sourceippart3, r.Sourceippart4,
      r.Destippart1, r.Destippart2, r.Destippart3, r.Destippart4, p, r.Destport,
      r.Protocol⟩ r = true ∧
    deleteMatch6 ⟨r.Sourceippart1, r.Sourceippart2, r.Sourceippart3, r.Sourceippart4,
      r.Destippart1, r.Destippart2, r.Destippart3, r.Destippart4, p, r.Destport,
      r.Protocol⟩ r = true ∧
    selfMatch6 ⟨r.Sourceippart1, r.Sourceippart2, r.Sourceippart3, r.Sourceippart4,
      r.Destippart1, r.Destippart2, r.Destippart3, r.Destippart4, p, r.Destport,
      r.Protocol⟩ r = true ∧
    rule6Port80 ≠ RuleT6.zero ∧ doDiffMatch6 RuleT6.zero rule6Port80 = true ∧
    deleteMatch6 rule6Port80 RuleT6.zero = true ∧
    selfMatch6 RuleT6.zero rule6Port80 = true := by
  refine ⟨?_, ?_, ?_, by decide, by decide, by decide, by decide⟩
  · simp [doDiffMatch6]
  · simp [deleteMatch6]
  · simp [selfMatch6]

/-! ## Command codes and the order of requests -/

/-- Claim C14, evaluated. For the family IPv6 all four request primitives issue
the code 110: syscallCreate, and also syscallDelete, syscallLookup and
syscallLen, whose table codes 111, 1000 and 1010 are declared but not used. -/
theorem ipv6_primitives_all_use_add_code {σ : Type} (d : Driver σ) (s : σ) (v : Arg) :
    (syscallCreate d Typ.ipv6 s v).2.1 = ⟨110, v⟩ ∧
    (syscallDelete d Typ.ipv6 s v).2.1 = ⟨110, v⟩ ∧
    (syscallLookup d Typ.ipv6 s v).2.1 = ⟨110, v⟩ ∧
    (syscallLen d Typ.ipv6 s).2.1 = ⟨110, Arg.imm 0⟩ ∧
    v6netDelRule = 111 ∧ v6netLookupRule = 1000 ∧ v6netRuleLen = 1010 :=
  ⟨rfl, rfl, rfl, rfl, rfl, rfl, rfl⟩

/-- Claim C15. For every builder, driver and state: each request issued by C,
D or Self on a `[]RuleT4` carries one of the IPv4 codes 0, 1, 10, 100, none of
the IPv6 codes, and no IPv6 rule or buffer; each request issued on a `[]RuleT6`
carries one of the IPv6 codes 110, 111, 1000, 1010, none of the IPv4 codes, and
no IPv4 rule or buffer. The list of the other family that ref hands to the
comparison loops is empty. -/
theorem family_isolation {σ : Type} (d : Driver σ) (b : builder) (s : σ)
    (xs : List RuleT4) (ys : List RuleT6) (rq : Request) :
    ((rq ∈ (b.C d (Value.sliceT4 xs) s).2.requests ∨
        rq ∈ (b.D d (Value.sliceT4 xs) s).2.requests ∨
        rq ∈ (b.Self d (Value.sliceT4 xs) s).2.requests) → IsV4Request rq) ∧
    ((rq ∈ (b.C d (Value.sliceT6 ys) s).2.requests ∨
        rq ∈ (b.D d (Value.sliceT6 ys) s).2.requests ∨
        rq ∈ (b.Self d (Value.sliceT6 ys) s).2.requests) → IsV6Request rq) ∧
    (b.ref (Value.sliceT4 xs)).2 = RefResult.ok xs [] ∧
    (b.ref (Value.sliceT6 ys)).2 = RefResult.ok [] ys := by
  refine ⟨?_, ?_, by simp [builder.ref, map_copyT4], by simp [builder.ref, map_copyT6]⟩
  · rintro (h | h | h)
    · exact (create4_shape d b xs s).all_v4_requests (by decide) rq h
    · exact (delete4_shape d b xs s).all_v4_requests (by decide) rq h
    · exact (self4_shape d b xs s).all_v4_requests (by decide) rq h
  · rintro (h | h | h)
    · exact ((create6_shape d b ys s).all_v6_requests rq h).1
    · exact ((delete6_shape d b ys s).all_v6_requests rq h).1
    · exact ((self6_shape d b ys s).all_v6_requests rq h).1

/-- Claim C15 at a C of one IPv4 rule and a C of one IPv6 rule on a driver that
reports length 0: the add requests issued are of the family of the input. -/
theorem family_isolation_witness :
    IsV4Request ⟨v4netAddRule, Arg.rule4 ruleA⟩ ∧
    IsV6Request ⟨v6netAddRule, Arg.rule6 rule6Port80⟩ :=
  ⟨(family_isolation scriptDriver newBuilder [Reply.ok 0] [ruleA] [rule6Port80]
      ⟨v4netAddRule, Arg.rule4 ruleA⟩).1 (Or.inl (by decide)),
    (family_isolation scriptDriver newBuilder [Reply.ok 0] [ruleA] [rule6Port80]
      ⟨v6netAddRule, Arg.rule6 rule6Port80⟩).2.1 (Or.inl (by decide))⟩

/-- Claim C18. For every `[]RuleT4` input, builder, driver and state, the
requests of C, D and Self are: the length query (code 100, argument 0) first,
then at most one lookup (code 10) directly after it, then only mutations
carrying an IPv4 rule, with code 0 in C and code 1 in D and Self. -/
theorem ipv4_protocol_order {σ : Type} (d : Driver σ) (b : builder) (xs : List RuleT4)
    (s : σ) :
    OrderedV4 v4netAddRule (b.C d (Value.sliceT4 xs) s).2.requests ∧
    OrderedV4 v4netDelRule (b.D d (Value.sliceT4 xs) s).2.requests ∧
    OrderedV4 v4netDelRule (b.Self d (Value.sliceT4 xs) s).2.requests :=
  ⟨(create4_shape d b xs s).ordered_v4, (delete4_shape d b xs s).ordered_v4,
    (self4_shape d b xs s).ordered_v4⟩

/-! ## Init and the documentation of delete -/

/-- Claim C16, evaluated. The error result of Init is nil for every way of
opening the device and every Options value; when opening fails, New returns
the error but Init returns a nil Builder together with a nil error. -/
theorem init_error_is_always_nil :
    (∀ (osOpen : String → Except Nat Nat) (opts : Option Options),
      (Init osOpen opts).2 = none) ∧
    (∀ (e : Nat) (opts : Option Options),
      New (fun _ => Except.error e) opts = (none, some e) ∧
      Init (fun _ => Except.error e) opts = (none, none)) := by
  constructor
  · intro osOpen opts
    unfold Init
    cases (New osOpen opts).2 <;> rfl
  · intro e opts
    cases opts <;> exact ⟨rfl, rfl⟩

/-- Claim C17, evaluated on the reference driver with `(0,0,0,1897,6)` and
`(0,0,0,999,6)` installed: D of `(0,0,0,555,6)`, which matches no installed
rule, issues the length query and the lookup, returns nil and leaves the
installed rules as they are. -/
theorem delete_missing_rule_returns_nil :
    (newBuilder.D listDriver4 (Value.sliceT4 [ruleC]) [ruleA, ruleB]).2.val = Outcome.nil ∧
    (newBuilder.D listDriver4 (Value.sliceT4 [ruleC]) [ruleA, ruleB]).2.requests =
      [⟨v4netRuleLen, Arg.imm 0⟩, ⟨v4netLookupRule, Arg.buf4 2⟩] ∧
    (newBuilder.D listDriver4 (Value.sliceT4 [ruleC]) [ruleA, ruleB]).2.st =
      [ruleA, ruleB] := by
  decide

end Sdputil
